import Mathlib

/-!
Verification of the Anatomy_View tool-call dispatcher, entity resolver and
process-trace scheduler.

The development is a shallow embedding of the JavaScript source files
`frontend/src/Root.jsx` (the `useAgentProcessTrace` hook and the heart
experience's `applyToolCalls`), `frontend/src/BrainExperience.jsx`,
`frontend/src/SkeletonExperience.jsx`, the region tables
`heartRegions.js` / `brainRegions.js` / `skeletonRegions.js`, and the
older heart/brain experience variants shipped in the repository.

JavaScript values that flow through the dispatcher (tool-call arguments,
trace-step fields, reducer payloads) are modelled by the inductive `JVal`;
JavaScript exceptions (TypeError from property access on null or from
calling a string method on a non-string, and explicit `throw new Error`)
are modelled by `Except JsErr`.  JavaScript numbers are modelled by `Rat`;
every number produced by `JSON.parse` is finite, so `Number.isFinite`
holds exactly of `JVal.num` values in this model.
-/

namespace AnatomyView

/-- A JavaScript/JSON value.  `null` also stands for `undefined`: the two
are distinguished in the source only in ways that do not matter here
(both are nullish, both are falsy, and object fields holding either read
back as nullish). -/
inductive JVal where
  | null
  | bool (b : Bool)
  | num (q : Rat)
  | str (s : String)
  | arr (elems : List JVal)
  | obj (fields : List (String × JVal))
  deriving Repr

mutual

/-- Structural equality of `JVal`s (the SameValueZero comparison used by
JavaScript `Map` keys, restricted to JSON-like data).  Rationals are kept
in canonical form, so numerator/denominator comparison is numeric
equality. -/
def JVal.beq : JVal → JVal → Bool
  | .null, .null => true
  | .bool a, .bool b => a == b
  | .num a, .num b => a.num == b.num && a.den == b.den
  | .str a, .str b => a == b
  | .arr xs, .arr ys => JVal.beqList xs ys
  | .obj fs, .obj gs => JVal.beqFields fs gs
  | _, _ => false

def JVal.beqList : List JVal → List JVal → Bool
  | [], [] => true
  | x :: xs, y :: ys => JVal.beq x y && JVal.beqList xs ys
  | _, _ => false

def JVal.beqFields : List (String × JVal) → List (String × JVal) → Bool
  | [], [] => true
  | (k, v) :: fs, (l, w) :: gs => k == l && JVal.beq v w && JVal.beqFields fs gs
  | _, _ => false

end

/-- JavaScript truthiness of a value.  A rational in canonical form is zero
iff its numerator is zero. -/
def truthy : JVal → Bool
  | .null => false
  | .bool b => b
  | .num q => !(q.num == 0)
  | .str s => !(s == "")
  | .arr _ => true
  | .obj _ => true

/-- A JavaScript exception: a TypeError (property access on null, calling a
string method on a non-string) or a plain thrown `Error`. -/
inductive JsErr where
  | typeError (msg : String)
  | error (msg : String)
  deriving DecidableEq, Repr

/-- Property read on a non-null value: objects look the field up (last
duplicate key wins, as in a JavaScript object); every other value yields
`undefined` for the field names used by this code base. -/
def getFld (v : JVal) (k : String) : JVal :=
  match v with
  | .obj fs =>
    match fs.reverse.find? (fun f => f.1 == k) with
    | some f => f.2
    | none => .null
  | _ => .null

/-- Property read with JavaScript semantics: reading a property of
`null`/`undefined` throws a TypeError. -/
def jsGet (v : JVal) (k : String) : Except JsErr JVal :=
  match v with
  | .null => .error (.typeError ("Cannot read properties of null (reading '" ++ k ++ "')"))
  | _ => .ok (getFld v k)

/-- `Number.isFinite`: true exactly of numbers in this model (all modelled
numbers are finite rationals). -/
def isFiniteNum : JVal → Bool
  | .num _ => true
  | _ => false

def isStr : JVal → Bool
  | .str _ => true
  | _ => false

def isBool : JVal → Bool
  | .bool _ => true
  | _ => false

/-- Numeric payload of a value known to be a number. -/
def asNum : JVal → Rat
  | .num q => q
  | _ => 0

/-- The nullish-coalescing operator `v ?? d`. -/
def nullishD (v d : JVal) : JVal :=
  match v with
  | .null => d
  | _ => v

/-- The truthiness-or operator `v || d`. -/
def truthyD (v d : JVal) : JVal :=
  if truthy v then v else d

/-- JavaScript string trim (whitespace from both ends), written over the
character list so that it evaluates inside the kernel. -/
def jsTrim (s : String) : String :=
  String.mk (((s.toList.dropWhile Char.isWhitespace).reverse.dropWhile
    Char.isWhitespace).reverse)

/-- JavaScript `toLowerCase` (ASCII case, sufficient for this code base). -/
def jsLower (s : String) : String := String.mk (s.toList.map Char.toLower)

/-- Rendering of a `JVal` into a template literal, modelling the JavaScript
`String(v)` coercion.  The numeric rendering is a simplified decimal form;
no verified property inspects a message string built from a number. -/
def jsString : JVal → String
  | .null => "null"
  | .bool b => if b then "true" else "false"
  | .num q => if q.den = 1 then toString q.num else toString q.num ++ "/" ++ toString q.den
  | .str s => s
  | .arr _ => ""
  | .obj _ => "[object Object]"

/-- Fixed-point rendering used by `toFixed` in success messages.  The
rounding detail is irrelevant to every verified property (no claim inspects
these message strings); integers render exactly.  Only integer arithmetic
is used so that the definition evaluates inside the kernel. -/
def ratToFixed (q : Rat) (digits : Nat) : String :=
  let scaledNum : Int := q.num * Int.ofNat (10 ^ digits)
  let n : Int := Int.fdiv (2 * scaledNum + Int.ofNat q.den) (2 * Int.ofNat q.den)
  let sign := if n < 0 then "-" else ""
  let a := n.natAbs
  let ip := a / 10 ^ digits
  let fp := a % 10 ^ digits
  let fpStr := Nat.toDigits 10 fp
  let pad := String.mk (List.replicate (digits - fpStr.length) '0')
  if digits = 0 then sign ++ toString ip
  else sign ++ toString ip ++ "." ++ pad ++ String.mk fpStr

/- ### JSON parsing (`JSON.parse`), used by `parseToolArguments` -/

def skipWs : List Char → List Char
  | c :: cs => if c = ' ' ∨ c = '\t' ∨ c = '\n' ∨ c = '\r' then skipWs cs else c :: cs
  | [] => []

def hexVal (c : Char) : Option Nat :=
  if '0' ≤ c ∧ c ≤ '9' then some (c.toNat - '0'.toNat)
  else if 'a' ≤ c ∧ c ≤ 'f' then some (c.toNat - 'a'.toNat + 10)
  else if 'A' ≤ c ∧ c ≤ 'F' then some (c.toNat - 'A'.toNat + 10)
  else none

def escChar (c : Char) : Option Char :=
  match c with
  | '"' => some '"'
  | '\\' => some '\\'
  | '/' => some '/'
  | 'n' => some '\n'
  | 't' => some '\t'
  | 'r' => some '\r'
  | 'b' => some (Char.ofNat 8)
  | 'f' => some (Char.ofNat 12)
  | _ => none

/-- Parse the body of a JSON string literal (the opening quote already
consumed), returning the decoded characters and the remaining input. -/
def parseStrChars : List Char → Option (List Char × List Char)
  | [] => none
  | '"' :: rest => some ([], rest)
  | '\\' :: c :: rest =>
    if c = 'u' then
      match rest with
      | h1 :: h2 :: h3 :: h4 :: rest' =>
        match hexVal h1, hexVal h2, hexVal h3, hexVal h4 with
        | some a, some b, some c', some d =>
          (parseStrChars rest').map fun p =>
            (Char.ofNat (((a * 16 + b) * 16 + c') * 16 + d) :: p.1, p.2)
        | _, _, _, _ => none
      | _ => none
    else
      match escChar c with
      | some e => (parseStrChars rest).map fun p => (e :: p.1, p.2)
      | none => none
  | c :: rest =>
    if c = '\\' then none
    else (parseStrChars rest).map fun p => (c :: p.1, p.2)

def digitsToNat (ds : List Char) : Nat :=
  ds.foldl (fun n c => n * 10 + (c.toNat - '0'.toNat)) 0

/-- Build the rational value of a parsed JSON number from its sign, its
integer digits, fraction digits and signed exponent digits.  Only
integer/natural arithmetic plus a single `mkRat` is used, keeping the
value kernel-computable. -/
def jsNumber (neg : Bool) (intDs fds : List Char) (esign : Bool) (eds : List Char) : Rat :=
  let mant : Nat := digitsToNat intDs * 10 ^ fds.length + digitsToNat fds
  let m : Int := if neg then -(Int.ofNat mant) else Int.ofNat mant
  let ev := digitsToNat eds
  if esign then mkRat m (10 ^ (fds.length + ev))
  else mkRat (m * Int.ofNat (10 ^ ev)) (10 ^ fds.length)

/-- Parse a JSON number. -/
def parseNumber (cs : List Char) : Option (Rat × List Char) :=
  let signed : Bool × List Char := match cs with
    | '-' :: r => (true, r)
    | _ => (false, cs)
  let neg := signed.1
  let cs1 := signed.2
  let intDs := cs1.takeWhile Char.isDigit
  let rest1 := cs1.dropWhile Char.isDigit
  if intDs.isEmpty then none else
  let fracStep : Option (List Char × List Char) :=
    match rest1 with
    | '.' :: r =>
      let fds := r.takeWhile Char.isDigit
      if fds.isEmpty then none else some (fds, r.dropWhile Char.isDigit)
    | _ => some ([], rest1)
  match fracStep with
  | none => none
  | some (fds, rest2) =>
    match rest2 with
    | e :: r =>
      if e = 'e' ∨ e = 'E' then
        let esigned : Bool × List Char := match r with
          | '+' :: rr => (false, rr)
          | '-' :: rr => (true, rr)
          | _ => (false, r)
        let eds := esigned.2.takeWhile Char.isDigit
        if eds.isEmpty then none
        else some (jsNumber neg intDs fds esigned.1 eds, esigned.2.dropWhile Char.isDigit)
      else some (jsNumber neg intDs fds false [], rest2)
    | [] => some (jsNumber neg intDs fds false [], [])

mutual

/-- Parse one JSON value (fuel-indexed recursive descent). -/
def parseVal : Nat → List Char → Option (JVal × List Char)
  | 0, _ => none
  | Nat.succ fuel, cs =>
    match skipWs cs with
    | 'n' :: 'u' :: 'l' :: 'l' :: rest => some (.null, rest)
    | 't' :: 'r' :: 'u' :: 'e' :: rest => some (.bool true, rest)
    | 'f' :: 'a' :: 'l' :: 's' :: 'e' :: rest => some (.bool false, rest)
    | '"' :: rest => (parseStrChars rest).map fun p => (.str (String.mk p.1), p.2)
    | '[' :: rest =>
      match skipWs rest with
      | ']' :: rest' => some (.arr [], rest')
      | _ => (parseElems fuel rest).map fun p => (.arr p.1, p.2)
    | '{' :: rest =>
      match skipWs rest with
      | '}' :: rest' => some (.obj [], rest')
      | _ => (parseMembers fuel rest).map fun p => (.obj p.1, p.2)
    | cs' => (parseNumber cs').map fun p => (.num p.1, p.2)

/-- Parse the elements of a non-empty JSON array. -/
def parseElems : Nat → List Char → Option (List JVal × List Char)
  | 0, _ => none
  | Nat.succ fuel, cs =>
    match parseVal fuel cs with
    | none => none
    | some (v, rest) =>
      match skipWs rest with
      | ',' :: rest' => (parseElems fuel rest').map fun p => (v :: p.1, p.2)
      | ']' :: rest' => some ([v], rest')
      | _ => none

/-- Parse the members of a non-empty JSON object. -/
def parseMembers : Nat → List Char → Option (List (String × JVal) × List Char)
  | 0, _ => none
  | Nat.succ fuel, cs =>
    match skipWs cs with
    | '"' :: rest =>
      match parseStrChars rest with
      | none => none
      | some (kcs, rest1) =>
        match skipWs rest1 with
        | ':' :: rest2 =>
          match parseVal fuel rest2 with
          | none => none
          | some (v, rest3) =>
            match skipWs rest3 with
            | ',' :: rest4 => (parseMembers fuel rest4).map fun p => ((String.mk kcs, v) :: p.1, p.2)
            | '}' :: rest4 => some ([(String.mk kcs, v)], rest4)
            | _ => none
        | _ => none
    | _ => none

end

/-- `JSON.parse`: `none` models a thrown SyntaxError. -/
def jsonParse (s : String) : Option JVal :=
  match parseVal (2 * s.length + 2) s.toList with
  | some (v, rest) => if (skipWs rest).isEmpty then some v else none
  | none => none

/-- Whether `typeof v === 'object'` (arrays, plain objects and `null`). -/
def typeofIsObject : JVal → Bool
  | .null => true
  | .arr _ => true
  | .obj _ => true
  | _ => false

/-- The `parseToolArguments` helper shared verbatim by
`BrainExperience.jsx`, `SkeletonExperience.jsx` and the heart experience
variant in `part_010`: falsy arguments become `{}`; a string is JSON
parsed, substituting `{}` on a parse error or a non-object result; any
other value passes through unchanged. -/
def parseToolArguments (args : JVal) : JVal :=
  if !truthy args then .obj []
  else match args with
    | .str s =>
      match jsonParse s with
      | some parsed => if truthy parsed && typeofIsObject parsed then parsed else .obj []
      | none => .obj []
    | _ => args

example : jsonParse "\x7b\"enabled\":true\x7d" = some (.obj [("enabled", .bool true)]) := by rfl
example : jsonParse "not json" = none := by rfl
example : parseToolArguments (.str "\x7b\"azimuth\":10,\"elevation\":5\x7d") =
    .obj [("azimuth", .num 10), ("elevation", .num 5)] := by rfl
example : parseToolArguments (.str "null") = .obj [] := by rfl
example : parseToolArguments (.str "[1,2]") = .arr [.num 1, .num 2] := by rfl

/- ### Entity resolution: region tables and resolvers -/

/-- Collapse every maximal run of characters satisfying `p` into the single
character `c` (the effect of `replace(/[-_]+/g, ' ')` and
`replace(/\s+/g, ' ')`). -/
def squashRuns (p : Char → Bool) (c : Char) : Bool → List Char → List Char
  | _, [] => []
  | inRun, x :: xs =>
    if p x then
      if inRun then squashRuns p c true xs
      else c :: squashRuns p c true xs
    else x :: squashRuns p c false xs

def isDashUnderscore (c : Char) : Bool := c = '-' || c = '_'

/-- The alias normalisation shared by the heart and brain resolvers:
`replace(/[-_]+/g, ' ').replace(/\s+/g, ' ').trim()`. -/
def normaliseAlias (s : String) : String :=
  jsTrim (String.mk (squashRuns Char.isWhitespace ' ' false
    (squashRuns isDashUnderscore ' ' false s.toList)))

/-- An entry of `HEART_REGIONS` (heartRegions.js, first variant: the one
imported by the heart experience). -/
structure HeartRegion where
  label : String
  position : List Rat
  color : String
  aliases : List String
  materialPatterns : List String

/-- The `HEART_REGIONS` table from `heartRegions.js`, in its source
insertion order. -/
def HEART_REGIONS : List (String × HeartRegion) :=
  [ ("left atrium",
      { label := "Left Atrium", position := [mkRat (-55) 100, mkRat 55 100, mkRat (-5) 100],
        color := "#38bdf8",
        aliases := ["left atrium", "left atrial chamber", "la"],
        materialPatterns := ["l_atrium", "latrium", "left_atrium", "atrium_left", "atrial_left"] }),
    ("right atrium",
      { label := "Right Atrium", position := [mkRat 55 100, mkRat 55 100, mkRat (-5) 100],
        color := "#f97316",
        aliases := ["right atrium", "right atrial chamber", "ra"],
        materialPatterns := ["r_atrium", "ratrium", "right_atrium", "atrium_right", "atrial_right"] }),
    ("left ventricle",
      { label := "Left Ventricle", position := [mkRat (-45) 100, mkRat (-2) 10, mkRat 25 100],
        color := "#22d3ee",
        aliases := ["left ventricle", "lv"],
        materialPatterns := ["ventricles1", "ventricles", "leftventricle", "left_ventricle",
          "ventricle_left", "ventricular_left"] }),
    ("right ventricle",
      { label := "Right Ventricle", position := [mkRat 45 100, mkRat (-2) 10, mkRat 25 100],
        color := "#facc15",
        aliases := ["right ventricle", "rv"],
        materialPatterns := ["ventricles1", "ventricles", "rightventricle", "right_ventricle",
          "ventricle_right", "ventricular_right"] }),
    ("aorta",
      { label := "Aorta", position := [mkRat 1 10, mkRat 8 10, mkRat (-25) 100],
        color := "#ef4444",
        aliases := ["aorta", "ascending aorta"],
        materialPatterns := ["aortal", "aorta", "aortic"] }),
    ("pulmonary trunk",
      { label := "Pulmonary Trunk", position := [mkRat (-2) 10, mkRat 75 100, mkRat 35 100],
        color := "#8b5cf6",
        aliases := ["pulmonary trunk", "pulmonary artery", "main pulmonary artery"],
        materialPatterns := ["artery", "pulmonary", "pulmonarytrunk", "pulmonary_trunk"] }),
    ("veins",
      { label := "Veins", position := [mkRat 3 10, mkRat 6 10, mkRat (-4) 10],
        color := "#3b82f6",
        aliases := ["veins", "venous system", "pulmonary veins", "vena cava"],
        materialPatterns := ["veins", "vein", "venous"] }),
    ("arteries",
      { label := "Arteries", position := [mkRat (-2) 10, mkRat 75 100, mkRat 35 100],
        color := "#dc2626",
        aliases := ["arteries", "arterial system", "pulmonary arteries"],
        materialPatterns := ["artery", "arteries", "arterial"] }) ]

/-- Whether one table entry matches the normalised forms of the input, in
the order the source checks: key against normalised or raw-compact input,
then each alias (normalised against normalised, or raw against compact). -/
def regionEntryMatches (key : String) (aliases : List String) (compact normalised : String) :
    Bool :=
  (key == normalised || key == compact) ||
    aliases.any (fun a => normaliseAlias a == normalised || a == compact)

/-- The `resolveHeartRegionName` function of `heartRegions.js`.  A falsy
input resolves to `null`; a truthy non-string input throws a TypeError
when `.trim()` is called on it; a string is normalised and matched against
the table in insertion order. -/
def resolveHeartRegionName (input : JVal) : Except JsErr (Option (String × HeartRegion)) :=
  if !truthy input then .ok none
  else match input with
    | .str s =>
      let compact := jsLower (jsTrim s)
      let normalised := normaliseAlias compact
      .ok (HEART_REGIONS.find? (fun e => regionEntryMatches e.1 e.2.aliases compact normalised))
    | _ => .error (.typeError "input.trim is not a function")

/-- An entry of `BRAIN_REGIONS` (brainRegions.js). -/
structure BrainRegion where
  label : String
  color : String
  aliases : List String
  groupPatterns : List String

/-- The `BRAIN_REGIONS` table from `brainRegions.js`, in its source
insertion order. -/
def BRAIN_REGIONS : List (String × BrainRegion) :=
  [ ("left hemisphere",
      { label := "Left Hemisphere", color := "#ff00ff",
        aliases := ["left hemisphere", "left brain", "left cerebral hemisphere", "left side"],
        groupPatterns := ["brain_left_hemisphere", "brainlefthemisphere", "left_hemisphere"] }),
    ("right hemisphere",
      { label := "Right Hemisphere", color := "#00ffff",
        aliases := ["right hemisphere", "right brain", "right cerebral hemisphere", "right side"],
        groupPatterns := ["brain_right_hemisphere", "brainrighthemisphere", "right_hemisphere"] }),
    ("brain stem",
      { label := "Brain Stem", color := "#00ff00",
        aliases := ["brain stem", "brainstem", "brain_stem", "stem"],
        groupPatterns := ["brain_stem", "brainstem"] }),
    ("cerebellum",
      { label := "Cerebellum", color := "#8b5cf6",
        aliases := ["cerebellum", "cerebellar"],
        groupPatterns := ["cerebellum"] }),
    ("olfactory nerve",
      { label := "Olfactory Nerve", color := "#ff1493",
        aliases := ["olfactory nerve", "olfactory", "cranial nerve 1", "cn1"],
        groupPatterns := ["olfactory_nerve", "olfactorynerve"] }),
    ("stria medullaris",
      { label := "Stria Medullaris", color := "#00ced1",
        aliases := ["stria medullaris", "stria mediullari", "stria"],
        groupPatterns := ["stria_medullari", "striamedullari"] }) ]

/-- The `resolveBrainRegionName` function of `brainRegions.js`; textually
the same algorithm as the heart resolver over the brain table. -/
def resolveBrainRegionName (input : JVal) : Except JsErr (Option (String × BrainRegion)) :=
  if !truthy input then .ok none
  else match input with
    | .str s =>
      let compact := jsLower (jsTrim s)
      let normalised := normaliseAlias compact
      .ok (BRAIN_REGIONS.find? (fun e => regionEntryMatches e.1 e.2.aliases compact normalised))
    | _ => .error (.typeError "input.trim is not a function")

/-- An entry of `SKELETON_REGIONS` (skeletonRegions.js). -/
structure SkelRegion where
  label : String
  color : String
  aliases : List String
  fileName : String

/-- The `SKELETON_REGIONS` table from `skeletonRegions.js`, in its source
insertion order. -/
def SKELETON_REGIONS : List (String × SkelRegion) :=
  [ ("skull",
      { label := "Skull", color := "#ff00ff",
        aliases := ["skull", "cranium", "head"], fileName := "skull" }),
    ("spine",
      { label := "Spine", color := "#00ffff",
        aliases := ["spine", "vertebrae", "vertebral column", "spinal column", "backbone"],
        fileName := "spine" }),
    ("rib cage",
      { label := "Rib Cage", color := "#00ff00",
        aliases := ["rib cage", "ribs", "ribcage", "thoracic cage", "chest"],
        fileName := "rib_cage" }),
    ("scapula",
      { label := "Scapula", color := "#8b5cf6",
        aliases := ["scapula", "scapulae", "shoulder blade", "shoulder blades"],
        fileName := "scapula" }),
    ("clavicle",
      { label := "Clavicle", color := "#ff1493",
        aliases := ["clavicle", "clavicles", "collarbone", "collar bone"],
        fileName := "clavicle" }),
    ("pelvis",
      { label := "Pelvis", color := "#00ced1",
        aliases := ["pelvis", "pelvic", "hip bone", "hip bones"], fileName := "pelvis" }),
    ("left humerus",
      { label := "Left Humerus, Ulna & Radius", color := "#ffa500",
        aliases := ["left humerus", "left ulna", "left radius", "left arm bones",
          "left upper arm", "left forearm"],
        fileName := "left_humerus_ulna_radius" }),
    ("right humerus",
      { label := "Right Humerus, Ulna & Radius", color := "#ffff00",
        aliases := ["right humerus", "right ulna", "right radius", "right arm bones",
          "right upper arm", "right forearm"],
        fileName := "right_humerus_ulna_radius" }),
    ("left hand",
      { label := "Left Hand", color := "#ff69b4",
        aliases := ["left hand", "left fingers", "left metacarpals", "left phalanges"],
        fileName := "left_hand" }),
    ("right hand",
      { label := "Right Hand", color := "#87ceeb",
        aliases := ["right hand", "right fingers", "right metacarpals", "right phalanges"],
        fileName := "right_hand" }),
    ("left femur",
      { label := "Left Femur", color := "#98fb98",
        aliases := ["left femur", "left thigh bone", "left thighbone"],
        fileName := "left_femur" }),
    ("right femur",
      { label := "Right Femur", color := "#dda0dd",
        aliases := ["right femur", "right thigh bone", "right thighbone"],
        fileName := "right_femur" }),
    ("left patella",
      { label := "Left Patella", color := "#f0e68c",
        aliases := ["left patella", "left kneecap", "left knee cap"],
        fileName := "left_patella" }),
    ("right patella",
      { label := "Right Patella", color := "#e0ffff",
        aliases := ["right patella", "right kneecap", "right knee cap"],
        fileName := "right_patella" }),
    ("left tibia",
      { label := "Left Fibula & Tibia", color := "#ffb6c1",
        aliases := ["left tibia", "left fibula", "left shin bone", "left shinbone",
          "left lower leg"],
        fileName := "left_fibula_tibia" }),
    ("right tibia",
      { label := "Right Fibula & Tibia", color := "#ffd700",
        aliases := ["right tibia", "right fibula", "right shin bone", "right shinbone",
          "right lower leg"],
        fileName := "right_fibula_tibia" }),
    ("left foot",
      { label := "Left Foot", color := "#adff2f",
        aliases := ["left foot", "left toes", "left tarsals", "left metatarsals"],
        fileName := "left_foot" }),
    ("right foot",
      { label := "Right Foot", color := "#ff6347",
        aliases := ["right foot", "right toes", "right tarsals", "right metatarsals"],
        fileName := "right_foot" }) ]

/-- Substring containment `haystack.includes(needle)`. -/
def strIncludes (haystack needle : String) : Bool :=
  haystack.toList.tails.any (needle.toList.isPrefixOf ·)

/-- The `findRegionByName` helper of `skeletonRegions.js`.  It calls
`name.toLowerCase()` with no guard, so any non-string input (including an
absent/null one) throws a TypeError; a string input is matched by
substring containment of an alias anywhere inside the lowercased input. -/
def findRegionByName (name : JVal) : Except JsErr (Option (String × SkelRegion)) :=
  match name with
  | .str s =>
    let lowerName := jsLower s
    .ok (SKELETON_REGIONS.find? (fun e => e.2.aliases.any (fun a => strIncludes lowerName a)))
  | _ => .error (.typeError "name.toLowerCase is not a function")

example : (resolveHeartRegionName (.str "Left Atrium")).map (·.map (·.1)) =
    .ok (some "left atrium") := by rfl
example : (resolveHeartRegionName (.str "left_atrium")).map (·.map (·.1)) =
    (resolveHeartRegionName (.str "LA")).map (·.map (·.1)) := by rfl
example : resolveHeartRegionName (.str "completely-unknown-name") = .ok none := by rfl
example : (findRegionByName (.str "my head hurts")).map (·.map (·.1)) =
    .ok (some "skull") := by rfl

/- ### Tool-call dispatchers -/

/-- A tool call as delivered by the backend: `arguments` may be raw JSON
text or an already-parsed value; `none` models an absent `arguments`
property (for which the destructuring default `{}` applies). -/
structure ToolCall where
  name : String
  arguments : Option JVal

/-- The `response` part of a tool result. -/
structure ToolResponse where
  status : String
  detail : JVal
  deriving Repr

/-- One per-call result pushed by `applyToolCalls`. -/
structure ToolResult where
  name : String
  status : String
  message : String
  response : ToolResponse
  deriving Repr

/-- A reducer action `{type, payload}` as passed to `dispatch`; actions
dispatched without a payload carry `JVal.null` (undefined). -/
structure Action where
  type : String
  payload : JVal
  deriving Repr

/-- The arguments value after the destructuring default
`arguments: args = {}` (the default fires only when the property is
absent/undefined). -/
def rawArgsOf (t : ToolCall) : JVal := t.arguments.getD (.obj [])

/-- An error `ToolResult` whose message and `response.detail` are the same
string, the shape every validation failure in the source uses. -/
def errResult (name detail : String) : ToolResult :=
  { name := name, status := "error", message := detail,
    response := { status := "error", detail := .str detail } }

/-- The camera-view case shared verbatim by every dispatcher
(`set_heart_view` / `set_brain_view` / `set_skeleton_view`): numeric
`azimuth` and `elevation` are required, numeric `distance` is optional,
and the success result echoes the validated numbers (omitting a zero
distance exactly as the truthiness spread `...(distance ? {distance} : {})`
does). -/
def setViewCase (name : String) (args : JVal) : ToolResult × List Action :=
  let azv := getFld args "azimuth"
  let elv := getFld args "elevation"
  let dsv := getFld args "distance"
  if isFiniteNum azv && isFiniteNum elv then
    let az := asNum azv
    let el := asNum elv
    let distTruthy := isFiniteNum dsv && !(asNum dsv).num == 0
    let payload : JVal := .obj [("azimuth", .num az), ("elevation", .num el),
      ("distance", if isFiniteNum dsv then .num (asNum dsv) else .null)]
    let detail : JVal := .obj ([("azimuth", .num az), ("elevation", .num el)] ++
      (if distTruthy then [("distance", .num (asNum dsv))] else []))
    let msg := "Adjusted camera to azimuth " ++ ratToFixed az 1 ++ "°, elevation " ++
      ratToFixed el 1 ++ "°" ++
      (if distTruthy then ", distance " ++ ratToFixed (asNum dsv) 2 else "") ++ "."
    ({ name := name, status := "success", message := msg,
       response := { status := "success", detail := detail } },
     [{ type := "SET_VIEW", payload := payload }])
  else (errResult name "Missing azimuth or elevation for camera control.", [])

/-- The annotation case shared verbatim by every dispatcher
(`annotate_heart_focus` / `annotate_brain_focus` / `annotate_skeleton_focus`):
truthy `title` and `description` are required. -/
def annotateCase (name : String) (args : JVal) : ToolResult × List Action :=
  let title := getFld args "title"
  let desc := getFld args "description"
  if !truthy title || !truthy desc then
    (errResult name "Both title and description are required.", [])
  else
    let payload : JVal := .obj [("title", title), ("description", desc)]
    ({ name := name, status := "success",
       message := "Annotation set: " ++ jsString title ++ ".",
       response := { status := "success", detail := payload } },
     [{ type := "SET_ANNOTATION", payload := payload }])

/-- The highlight case shared by the heart (Root.jsx) and brain
dispatchers, parameterised by the resolved entry's key/label/color and the
raw arguments: an optional `color` must match
`^#([0-9a-fA-F]{3}|[0-9a-fA-F]{6})$` (after trimming a string input) or
the entry's configured color is used; an optional string `comment` (or
`detail`) is trimmed and echoed when non-empty. -/
def isHexDigitChar (c : Char) : Bool :=
  ('0' ≤ c && c ≤ '9') || ('a' ≤ c && c ≤ 'f') || ('A' ≤ c && c ≤ 'F')

/-- The test of the literal regex `^#([0-9a-fA-F]{3}|[0-9a-fA-F]{6})$`. -/
def hexColorTest (s : String) : Bool :=
  match s.toList with
  | '#' :: rest => (rest.length == 3 || rest.length == 6) && rest.all isHexDigitChar
  | _ => false

def highlightSuccess (name key label color : String) (args : JVal) :
    ToolResult × List Action :=
  let colorV := getFld args "color"
  let colorInput := match colorV with
    | .str s => jsTrim s
    | _ => ""
  let highlightColor := if hexColorTest colorInput then colorInput else color
  let commentV := getFld args "comment"
  let detailV := getFld args "detail"
  let rawComment := match commentV with
    | .str s => s
    | _ => match detailV with
      | .str s' => s'
      | _ => ""
  let highlightComment := jsTrim rawComment
  let payload : JVal := .obj [("key", .str key), ("color", .str highlightColor),
    ("label", .str label), ("comment", .str highlightComment)]
  let detail : JVal := .obj ([("regionKey", .str key), ("regionLabel", .str label),
    ("color", .str highlightColor)] ++
    (if highlightComment == "" then [] else [("comment", .str highlightComment)]))
  ({ name := name, status := "success", message := "Highlighted " ++ label ++ ".",
     response := { status := "success", detail := detail } },
   [{ type := "SET_HIGHLIGHT", payload := payload }])

/-- The default case: an unrecognised tool name. -/
def unrecognisedCase (name : String) : ToolResult × List Action :=
  (errResult name "Tool not recognised by the renderer.", [])

/-- One tool call processed by the heart experience dispatcher
(`applyToolCalls` in Root.jsx's `HeartExperience`).  This dispatcher does
not parse string arguments: `args` is the raw `arguments` value.  Each
case that reads a property of `args` throws a TypeError when `args` is
null, and the highlight case propagates the resolver's TypeError on a
truthy non-string region. -/
def heartHandleCall (t : ToolCall) : Except JsErr (ToolResult × List Action) :=
  let args := rawArgsOf t
  match t.name with
  | "set_heart_view" =>
    match args with
    | .null => .error (.typeError "Cannot read properties of null (reading 'azimuth')")
    | _ => .ok (setViewCase t.name args)
  | "highlight_heart_region" =>
    match args with
    | .null => .error (.typeError "Cannot read properties of null (reading 'region')")
    | _ =>
      let regionV := getFld args "region"
      match resolveHeartRegionName regionV with
      | .error e => .error e
      | .ok none =>
        let warning := "Unknown heart region: " ++
          jsString (nullishD regionV (.str "unspecified")) ++ "."
        .ok (errResult t.name warning, [])
      | .ok (some (key, data)) => .ok (highlightSuccess t.name key data.label data.color args)
  | "clear_highlighted_region" =>
    .ok ({ name := t.name, status := "success", message := "Cleared highlighted region.",
           response := { status := "success", detail := .str "Cleared highlighted region." } },
         [{ type := "CLEAR_HIGHLIGHT", payload := .null }])
  | "annotate_heart_focus" =>
    match args with
    | .null => .error (.typeError "Cannot read properties of null (reading 'title')")
    | _ => .ok (annotateCase t.name args)
  | _ => .ok (unrecognisedCase t.name)

/-- Sequential processing of a batch with exception propagation: the
`forEach` loop body runs per call, and an uncaught exception aborts the
whole `applyToolCalls` invocation. -/
def tryMap (f : ToolCall → Except JsErr (ToolResult × List Action)) :
    List ToolCall → Except JsErr (List (ToolResult × List Action))
  | [] => .ok []
  | c :: cs =>
    match f c with
    | .error e => .error e
    | .ok r =>
      match tryMap f cs with
      | .error e => .error e
      | .ok rs => .ok (r :: rs)

/-- The heart experience's `applyToolCalls` (Root.jsx lines 411-567),
returning each call's pushed `ToolResult` together with the reducer
actions it dispatched. -/
def heartApplyToolCalls (calls : List ToolCall) :
    Except JsErr (List (ToolResult × List Action)) :=
  tryMap heartHandleCall calls


/-- One tool call processed by the brain experience dispatcher
(`applyToolCalls` in BrainExperience.jsx): string arguments are first run
through `parseToolArguments`. -/
def brainHandleCall (t : ToolCall) : Except JsErr (ToolResult × List Action) :=
  let args := parseToolArguments (rawArgsOf t)
  match t.name with
  | "set_heart_view" =>
    match args with
    | .null => .error (.typeError "Cannot read properties of null (reading 'azimuth')")
    | _ => .ok (setViewCase t.name args)
  | "set_brain_view" =>
    match args with
    | .null => .error (.typeError "Cannot read properties of null (reading 'azimuth')")
    | _ => .ok (setViewCase t.name args)
  | "highlight_brain_region" =>
    match args with
    | .null => .error (.typeError "Cannot read properties of null (reading 'region')")
    | _ =>
      let regionV := getFld args "region"
      match resolveBrainRegionName regionV with
      | .error e => .error e
      | .ok none =>
        let warning := "Unknown brain region: " ++
          jsString (nullishD regionV (.str "unspecified")) ++ "."
        .ok (errResult t.name warning, [])
      | .ok (some (key, data)) => .ok (highlightSuccess t.name key data.label data.color args)
  | "clear_highlighted_region" =>
    .ok ({ name := t.name, status := "success", message := "Cleared highlighted region.",
           response := { status := "success", detail := .str "Cleared highlighted region." } },
         [{ type := "CLEAR_HIGHLIGHT", payload := .null }])
  | "toggle_auto_rotation" =>
    match args with
    | .null => .error (.typeError "Cannot read properties of null (reading 'enabled')")
    | _ =>
      let enabledV := getFld args "enabled"
      if !isBool enabledV then
        .ok (errResult t.name "The enabled flag must be provided.", [])
      else
        .ok ({ name := t.name, status := "success",
               message := "Auto-rotation is disabled for manual exploration of the brain.",
               response := { status := "success",
                             detail := .obj [("enabled", .bool false)] } },
             [{ type := "SET_AUTO_ROTATE", payload := enabledV }])
  | "highlight_heart_region" =>
    .ok (errResult t.name "Heart highlighting is not available in the brain viewer.", [])
  | "annotate_heart_focus" =>
    match args with
    | .null => .error (.typeError "Cannot read properties of null (reading 'title')")
    | _ => .ok (annotateCase t.name args)
  | "annotate_brain_focus" =>
    match args with
    | .null => .error (.typeError "Cannot read properties of null (reading 'title')")
    | _ => .ok (annotateCase t.name args)
  | _ => .ok (unrecognisedCase t.name)

/-- The brain experience's `applyToolCalls` (BrainExperience.jsx lines
294-492). -/
def brainApplyToolCalls (calls : List ToolCall) :
    Except JsErr (List (ToolResult × List Action)) :=
  tryMap brainHandleCall calls

/-- One tool call processed by the skeleton experience dispatcher
(`applyToolCalls` in SkeletonExperience.jsx): string arguments are first
run through `parseToolArguments`.  Note that `clear_highlighted_region`
dispatches two reducer actions, `toggle_auto_rotation` dispatches none,
and the optional highlight `color` is taken verbatim whenever truthy
(`args.color || regionConfig.color`), with no hex validation. -/
def skelHandleCall (t : ToolCall) : Except JsErr (ToolResult × List Action) :=
  let args := parseToolArguments (rawArgsOf t)
  match t.name with
  | "set_skeleton_view" =>
    match args with
    | .null => .error (.typeError "Cannot read properties of null (reading 'azimuth')")
    | _ => .ok (setViewCase t.name args)
  | "set_brain_view" =>
    match args with
    | .null => .error (.typeError "Cannot read properties of null (reading 'azimuth')")
    | _ => .ok (setViewCase t.name args)
  | "set_heart_view" =>
    match args with
    | .null => .error (.typeError "Cannot read properties of null (reading 'azimuth')")
    | _ => .ok (setViewCase t.name args)
  | "annotate_skeleton_focus" =>
    match args with
    | .null => .error (.typeError "Cannot read properties of null (reading 'title')")
    | _ => .ok (annotateCase t.name args)
  | "annotate_heart_focus" =>
    match args with
    | .null => .error (.typeError "Cannot read properties of null (reading 'title')")
    | _ => .ok (annotateCase t.name args)
  | "clear_highlighted_region" =>
    .ok ({ name := t.name, status := "success",
           message := "Cleared any active annotations and highlights for the skeleton.",
           response := { status := "success",
                         detail := .str "Annotations and highlights cleared." } },
         [{ type := "SET_ANNOTATION", payload := .null },
          { type := "HIGHLIGHT_REGION", payload := .null }])
  | "highlight_skeleton_region" =>
    match args with
    | .null => .error (.typeError "Cannot read properties of null (reading 'region')")
    | _ =>
      let regionV := getFld args "region"
      if !truthy regionV then
        .ok (errResult t.name "Missing required parameter: region.", [])
      else
        match findRegionByName regionV with
        | .error e => .error e
        | .ok none =>
          .ok (errResult t.name
            ("Unknown skeleton region: \"" ++ jsString regionV ++ "\"."), [])
        | .ok (some (_, rc)) =>
          let highlightColor := truthyD (getFld args "color") (.str rc.color)
          .ok ({ name := t.name, status := "success",
                 message := "Highlighting " ++ rc.label ++ " in " ++
                   jsString highlightColor ++ ".",
                 response := { status := "success",
                               detail := .obj [("region", regionV), ("color", highlightColor)] } },
               [{ type := "HIGHLIGHT_REGION",
                  payload := .obj [("fileName", .str rc.fileName),
                    ("color", highlightColor)] }])
  | "highlight_heart_region" =>
    .ok (errResult t.name "Heart highlighting is not available in skeleton view.", [])
  | "toggle_auto_rotation" =>
    .ok ({ name := t.name, status := "success",
           message := "Auto-rotation is disabled for precise manual inspection.",
           response := { status := "success", detail := .obj [("enabled", .bool false)] } },
         [])
  | _ => .ok (unrecognisedCase t.name)

/-- The skeleton experience's `applyToolCalls` (SkeletonExperience.jsx
lines 182-346). -/
def skelApplyToolCalls (calls : List ToolCall) :
    Except JsErr (List (ToolResult × List Action)) :=
  tryMap skelHandleCall calls

/-- One tool call processed by the older brain experience dispatcher in
`part_007`.  This dispatcher destructures `arguments` directly —
`const \x7b name, arguments: args = \x7b\x7d \x7d = tool` — and never calls
`parseToolArguments`, so a raw JSON string is used as-is and all its
property reads yield `undefined`. -/
def brain07HandleCall (t : ToolCall) : Except JsErr (ToolResult × List Action) :=
  let args := rawArgsOf t
  match t.name with
  | "set_heart_view" =>
    match args with
    | .null => .error (.typeError "Cannot read properties of null (reading 'azimuth')")
    | _ => .ok (setViewCase t.name args)
  | "set_brain_view" =>
    match args with
    | .null => .error (.typeError "Cannot read properties of null (reading 'azimuth')")
    | _ => .ok (setViewCase t.name args)
  | "toggle_auto_rotation" =>
    match args with
    | .null => .error (.typeError "Cannot read properties of null (reading 'enabled')")
    | _ =>
      let enabledV := getFld args "enabled"
      if !isBool enabledV then
        .ok (errResult t.name "The enabled flag must be provided.", [])
      else
        .ok ({ name := t.name, status := "success",
               message := "Auto-rotation is disabled for manual exploration of the brain.",
               response := { status := "success",
                             detail := .obj [("enabled", .bool false)] } },
             [{ type := "SET_AUTO_ROTATE", payload := enabledV }])
  | "highlight_heart_region" =>
    .ok (errResult t.name "Brain highlighting is not available in this viewer yet.", [])
  | "clear_highlighted_region" =>
    .ok ({ name := t.name, status := "success",
           message := "No highlight active for the brain model.",
           response := { status := "success",
                         detail := .str "No highlight active for the brain model." } },
         [])
  | "annotate_heart_focus" =>
    match args with
    | .null => .error (.typeError "Cannot read properties of null (reading 'title')")
    | _ => .ok (annotateCase t.name args)
  | _ => .ok (unrecognisedCase t.name)

/-- The `applyToolCalls` of the older brain experience in `part_007`
(lines 112-258). -/
def brain07ApplyToolCalls (calls : List ToolCall) :
    Except JsErr (List (ToolResult × List Action)) :=
  tryMap brain07HandleCall calls

/- ### The brain experience view-state reducer -/

/-- The camera view sub-state; the fields are kept as `JVal`s because the
reducer stores whatever the action payload carries. -/
structure ViewParams where
  azimuth : JVal
  elevation : JVal
  distance : JVal
  deriving Repr

/-- The brain experience controller state, mirroring
`initialControllerState` in BrainExperience.jsx: it has `view`,
`highlightRegion` and `annotation` fields and — notably — no `autoRotate`
field. -/
structure BrainState where
  view : ViewParams
  highlightRegion : JVal
  annotation : JVal
  deriving Repr

/-- `initialControllerState` of BrainExperience.jsx. -/
def brainInitialState : BrainState :=
  { view := { azimuth := .num 20, elevation := .num 18, distance := .num (mkRat 31 10) },
    highlightRegion := .null, annotation := .null }

/-- The `controllerReducer` of BrainExperience.jsx (lines 25-49).  Its
cases are `SET_VIEW`, `SET_HIGHLIGHT`, `CLEAR_HIGHLIGHT` and
`SET_ANNOTATION`; every other action type — including `SET_AUTO_ROTATE` —
falls through to `default: return state`. -/
def brainControllerReducer (state : BrainState) (action : Action) : BrainState :=
  match action.type with
  | "SET_VIEW" =>
    let p := action.payload
    let nextDistance := if isFiniteNum (getFld p "distance") then getFld p "distance"
      else state.view.distance
    { state with view :=
        { azimuth := nullishD (getFld p "azimuth") state.view.azimuth,
          elevation := nullishD (getFld p "elevation") state.view.elevation,
          distance := nextDistance } }
  | "SET_HIGHLIGHT" => { state with highlightRegion := action.payload }
  | "CLEAR_HIGHLIGHT" => { state with highlightRegion := .null }
  | "SET_ANNOTATION" => { state with annotation := action.payload }
  | _ => state


/- ### The process-trace scheduler (`useAgentProcessTrace` in Root.jsx) -/

/-- A normalised trace step.  All fields are kept as `JVal`s because the
wire format does not constrain their types beyond what `normaliseStep`
enforces. -/
structure Step where
  id : JVal
  label : JVal
  status : JVal
  detail : JVal
  timestamp : JVal
  deriving Repr

/-- `STEP_ORDER`: the canonical six-stage pipeline order. -/
def STEP_ORDER : List String :=
  ["reading_prompt", "augmenting_context", "dispatching_to_gemini",
   "receiving_gemini_response", "extracting_tool_calls", "rendering_reply"]

/-- `STEP_LABELS`. -/
def STEP_LABELS : List (String × String) :=
  [("reading_prompt", "Reading user prompt"),
   ("augmenting_context", "Augmenting context"),
   ("dispatching_to_gemini", "Dispatching to Gemini"),
   ("receiving_gemini_response", "Receiving response from Gemini"),
   ("extracting_tool_calls", "Extracting tool calls"),
   ("rendering_reply", "Rendering final reply")]

/-- `STATUS_PRIORITY[status] ?? 0`. -/
def statusPriority : JVal → Nat
  | .str "error" => 4
  | .str "complete" => 3
  | .str "in-progress" => 2
  | .str "pending" => 1
  | _ => 0

/-- `normaliseStatus`: a falsy status (absent, null, empty) becomes
`'complete'`; the wire synonym `'started'` becomes `'in-progress'`; any
other value passes through. -/
def normaliseStatus (status : JVal) : JVal :=
  if !truthy status then .str "complete"
  else match status with
    | .str "started" => .str "in-progress"
    | _ => status

/-- `normaliseDetail`: primitives pass through; other values are deep
copied via a JSON round trip, which is the identity on the JSON-like
values of this model. -/
def normaliseDetail : JVal → JVal
  | .null => .null
  | .str s => .str s
  | .num q => .num q
  | .bool b => .bool b
  | v => v

/-- Split a character list at a separator, JavaScript `split` semantics
(an empty input yields one empty segment). -/
def splitChars (sep : Char) : List Char → List (List Char)
  | [] => [[]]
  | c :: cs =>
    if c = sep then [] :: splitChars sep cs
    else
      match splitChars sep cs with
      | g :: gs => (c :: g) :: gs
      | [] => [[c]]

/-- `segment.charAt(0).toUpperCase() + segment.slice(1)`. -/
def capFirst : List Char → List Char
  | [] => []
  | c :: r => c.toUpper :: r

/-- The `labelFor` fallback for a string id: the `STEP_LABELS` entry if
one exists, else the capitalised underscore-split form. -/
def labelForStr (id : String) : String :=
  match STEP_LABELS.find? (fun e => e.1 == id) with
  | some e => e.2
  | none => String.mk (List.intercalate [' '] ((splitChars '_' id.toList).map capFirst))

/-- `labelFor(id)`: the `STEP_LABELS[id]` property lookup coerces a
non-string key to a string that never matches the six snake_case keys, so
a non-string id always reaches `id.split('_')` and throws. -/
def labelForJ (id : JVal) : Except JsErr JVal :=
  match id with
  | .str s => .ok (.str (labelForStr s))
  | _ => .error (.typeError "id.split is not a function")

/-- `normaliseStep(step, labelFor)` with the current time `now` supplied
explicitly: steps without a truthy `id` throw
`'Agent trace step is missing an id.'` (the enqueue loop catches this and
drops the step). -/
def normaliseStep (step : JVal) (now : String) : Except JsErr Step :=
  match jsGet step "id" with
  | .error e => .error e
  | .ok idV =>
    if !truthy idV then .error (.error "Agent trace step is missing an id.")
    else
      let labelRaw := getFld step "label"
      match (if truthy labelRaw then .ok labelRaw else labelForJ idV : Except JsErr JVal) with
      | .error e => .error e
      | .ok label =>
        .ok { id := idV, label := label,
              status := normaliseStatus (getFld step "status"),
              detail := normaliseDetail (getFld step "detail"),
              timestamp := truthyD (getFld step "timestamp") (.str now) }

/-- The canonical index of a step id in `STEP_ORDER`; unrecognised ids
(including non-string ids, which a string-keyed `Map` never contains)
sort after all known stages. -/
def stepOrderIndex (id : JVal) : Nat :=
  match id with
  | .str s =>
    match STEP_ORDER.findIdx? (fun k => k == s) with
    | some i => i
    | none => STEP_ORDER.length
  | _ => STEP_ORDER.length

/-- The sort comparator of `sortSteps` as a total "before or equal"
test: primary key the canonical index, ties broken by label (modelling
`localeCompare` with code-point string comparison; every label compared
in this development is an ASCII string). -/
def stepLe (a b : Step) : Bool :=
  let ia := stepOrderIndex a.id
  let ib := stepOrderIndex b.id
  if ia = ib then !(compare (jsString a.label) (jsString b.label) == Ordering.gt)
  else ia < ib

/-- Stable insertion of a step into an already sorted list: the new
element goes after every element ordered before-or-equal to it. -/
def insSorted (x : Step) : List Step → List Step
  | [] => [x]
  | y :: ys => if stepLe y x then y :: insSorted x ys else x :: y :: ys

def sortStepsAux : List Step → List Step → List Step
  | [], acc => acc
  | x :: xs, acc => sortStepsAux xs (insSorted x acc)

/-- `sortSteps`: the stable sort by canonical pipeline order used on the
visible list and on each incoming batch.  A stable sort for a total
preorder is unique, so insertion sort agrees with the engine sort. -/
def sortSteps (l : List Step) : List Step := sortStepsAux l []

/-- One `map.set` step of `new Map(previous.map((step) => [step.id, step]))`
followed by later `set` calls: an existing key keeps its position and
takes the new value, a new key is appended. -/
def upsertStep (l : List Step) (s : Step) : List Step :=
  if l.any (fun t => JVal.beq t.id s.id) then
    l.map (fun t => if JVal.beq t.id s.id then s else t)
  else l ++ [s]

/-- The JavaScript `Map` built from the visible list, as an id-keyed
association list in insertion order. -/
def stepMapFromList (l : List Step) : List Step := l.foldl upsertStep []

/-- The merge applied when a queued step's id already exists in the
visible list:
detail is `normalised.detail ?? existing.detail ?? null`, status is
replaced only when the incoming priority is at least the current one, and
the timestamp is `normalised.timestamp || existing.timestamp`. -/
def mergeStep (existing incoming : Step) : Step :=
  { existing with
    detail := nullishD incoming.detail (nullishD existing.detail .null),
    status := if statusPriority existing.status ≤ statusPriority incoming.status
      then incoming.status else existing.status,
    timestamp := truthyD incoming.timestamp existing.timestamp }

/-- `applyNormalisedStep` (Root.jsx lines 135-156): merge one normalised
step into the visible list and re-sort canonically. -/
def applyNormalisedStep (previous : List Step) (normalised : Step) : List Step :=
  let merged := stepMapFromList previous
  match merged.find? (fun t => JVal.beq t.id normalised.id) with
  | none => sortSteps (merged ++ [normalised])
  | some existing =>
    sortSteps (merged.map (fun t =>
      if JVal.beq t.id normalised.id then mergeStep existing normalised else t))

/-- The scheduler state: the visible `steps`, the FIFO animation queue,
the multiset of outstanding host timers (handle, queued step), the
`animationTimerRef` handle, the `isAnimatingRef` single-flight guard and
a fresh-handle counter. -/
structure SchedState where
  steps : List Step
  queue : List Step
  timers : List (Nat × Step)
  currentHandle : Option Nat
  isAnimating : Bool
  nextId : Nat
  deriving Repr

/-- The hook's initial state. -/
def initState : SchedState :=
  { steps := [], queue := [], timers := [], currentHandle := none,
    isAnimating := false, nextId := 0 }

/-- `clearAnimationTimer` (Root.jsx lines 127-133): cancel the timer the
ref points to, if any, and drop the single-flight guard. -/
def clearAnimationTimer (s : SchedState) : SchedState :=
  let s' := match s.currentHandle with
    | some h => { s with timers := s.timers.filter (fun p => p.1 != h),
                         currentHandle := none }
    | none => s
  { s' with isAnimating := false }

/-- `processQueue` (Root.jsx lines 158-176): under the single-flight
guard, shift the queue head and schedule one timer that will apply it.
The randomised delay is irrelevant here because timer firing is a
separate transition (`fireTimer`). -/
def processQueue (s : SchedState) : SchedState :=
  if s.isAnimating then s
  else match s.queue with
    | [] => s
    | x :: rest =>
      { s with queue := rest, isAnimating := true,
               timers := s.timers ++ [(s.nextId, x)],
               currentHandle := some s.nextId,
               nextId := s.nextId + 1 }

/-- `enqueueSteps` (Root.jsx lines 178-207): normalise the batch,
dropping steps that throw (those without an id); canonically sort the
batch; push it onto the queue tail; kick `processQueue`. -/
def enqueueSteps (s : SchedState) (incoming : List JVal) (now : String) : SchedState :=
  if incoming.isEmpty then s
  else
    let normalisedList := incoming.filterMap (fun j => (normaliseStep j now).toOption)
    if normalisedList.isEmpty then s
    else processQueue { s with queue := s.queue ++ sortSteps normalisedList }

/-- The three optimistic seed steps of `startTrace`. -/
def seedSteps (now : String) : List JVal :=
  [ .obj [("id", .str "reading_prompt"), ("status", .str "in-progress"),
      ("timestamp", .str now)],
    .obj [("id", .str "augmenting_context"), ("status", .str "pending"),
      ("timestamp", .str now)],
    .obj [("id", .str "dispatching_to_gemini"), ("status", .str "pending"),
      ("timestamp", .str now)] ]

/-- `startTrace` (Root.jsx lines 209-220): cancel any outstanding timer,
discard the queue, clear the visible list, then enqueue the seeds. -/
def startTrace (s : SchedState) (now : String) : SchedState :=
  let s1 := clearAnimationTimer s
  let s2 := { s1 with queue := [], isAnimating := false, steps := [] }
  enqueueSteps s2 (seedSteps now) now

/-- `updateFromServer` (Root.jsx lines 222-227). -/
def updateFromServer (s : SchedState) (serverSteps : List JVal) (now : String) : SchedState :=
  enqueueSteps s serverSteps now

/-- `markFinalStatus` (Root.jsx lines 229-241). -/
def markFinalStatus (s : SchedState) (status detail : JVal) (now : String) : SchedState :=
  enqueueSteps s
    [.obj [("id", .str "rendering_reply"), ("status", status), ("detail", detail),
      ("timestamp", .str now)]] now

/-- `clearTrace` (Root.jsx lines 243-248): like the reset prefix of
`startTrace` but without reseeding. -/
def clearTrace (s : SchedState) : SchedState :=
  let s1 := clearAnimationTimer s
  { s1 with queue := [], isAnimating := false, steps := [] }

/-- The host runtime fires the timer with handle `h`, if it is still
outstanding (a cancelled timer's callback never runs): the callback nulls
the ref, applies its step to the visible list, drops the single-flight
guard and calls `processQueue` again. -/
def fireTimer (s : SchedState) (h : Nat) : SchedState :=
  match s.timers.find? (fun p => p.1 == h) with
  | none => s
  | some p =>
    let s1 := { s with timers := s.timers.filter (fun q => q.1 != h),
                       currentHandle := none,
                       steps := applyNormalisedStep s.steps p.2,
                       isAnimating := false }
    processQueue s1

/-- The states the scheduler can reach from its initial state through its
public operations and timer firings. -/
inductive Reach : SchedState → Prop where
  | init : Reach initState
  | start (s : SchedState) (now : String) : Reach s → Reach (startTrace s now)
  | update (s : SchedState) (batch : List JVal) (now : String) :
      Reach s → Reach (updateFromServer s batch now)
  | final (s : SchedState) (status detail : JVal) (now : String) :
      Reach s → Reach (markFinalStatus s status detail now)
  | clear (s : SchedState) : Reach s → Reach (clearTrace s)
  | fire (s : SchedState) (h : Nat) : Reach s → Reach (fireTimer s h)


/- ### Helper lemmas -/

theorem insSorted_perm (x : Step) (l : List Step) : (insSorted x l).Perm (x :: l) := by
  induction l with
  | nil => simp [insSorted]
  | cons y ys ih =>
    unfold insSorted
    by_cases h : stepLe y x = true
    · simp only [h, if_true]
      exact (ih.cons y).trans (List.Perm.swap x y ys)
    · simp only [h]
      simp

theorem sortStepsAux_perm (l : List Step) :
    ∀ acc : List Step, (sortStepsAux l acc).Perm (acc ++ l) := by
  induction l with
  | nil => intro acc; simp [sortStepsAux]
  | cons x xs ih =>
    intro acc
    unfold sortStepsAux
    refine (ih (insSorted x acc)).trans ?_
    refine (List.Perm.append_right xs (insSorted_perm x acc)).trans ?_
    exact (List.perm_middle).symm

theorem sortSteps_perm (l : List Step) : (sortSteps l).Perm l := by
  simpa [sortSteps] using sortStepsAux_perm l []

theorem mem_sortSteps {x : Step} {l : List Step} (h : x ∈ l) : x ∈ sortSteps l :=
  (sortSteps_perm l).mem_iff.mpr h

theorem nullishD_of_ne_null {v d : JVal} (h : v ≠ .null) : nullishD v d = v := by
  cases v <;> simp_all [nullishD]


/- ### C10 -/

/-- C10: a server-reported trace step that has a (truthy, string) id but
no `status` field is normalised with status `'complete'` — not `'pending'`
or `'in-progress'` — and is created in the visible list as a completed
stage. -/
theorem statusless_step_normalises_complete (fs : List (String × JVal)) (sid now : String)
    (hid : getFld (.obj fs) "id" = .str sid) (hsid : sid ≠ "")
    (hstat : getFld (.obj fs) "status" = .null) :
    ∃ st : Step, normaliseStep (.obj fs) now = .ok st ∧
      st.status = .str "complete" ∧
      st.status ≠ .str "pending" ∧ st.status ≠ .str "in-progress" ∧
      applyNormalisedStep [] st = [st] := by
  have htr : truthy (.str sid) = true := by simp [truthy, hsid]
  have hns : normaliseStatus (getFld (.obj fs) "status") = .str "complete" := by
    rw [hstat]; simp [normaliseStatus, truthy]
  refine ⟨{ id := .str sid,
            label := if truthy (getFld (.obj fs) "label") then getFld (.obj fs) "label"
              else .str (labelForStr sid),
            status := .str "complete",
            detail := normaliseDetail (getFld (.obj fs) "detail"),
            timestamp := truthyD (getFld (.obj fs) "timestamp") (.str now) }, ?_, rfl, ?_, ?_, ?_⟩
  · unfold normaliseStep
    simp only [jsGet, hid, htr, Bool.not_true, hns]
    by_cases hl : truthy (getFld (.obj fs) "label") = true
    · simp [hl]
    · simp only [Bool.not_eq_true] at hl
      simp [hl, labelForJ]
  · intro h; exact absurd (congrArg id h) (by simp)
  · intro h; exact absurd (congrArg id h) (by simp)
  · rfl

/-- Witness for `statusless_step_normalises_complete` at a concrete
status-less wire step. -/
theorem statusless_step_normalises_complete_witness :
    ∃ st : Step, normaliseStep (.obj [("id", .str "augmenting_context")]) "t0" = .ok st ∧
      st.status = .str "complete" ∧
      st.status ≠ .str "pending" ∧ st.status ≠ .str "in-progress" ∧
      applyNormalisedStep [] st = [st] :=
  statusless_step_normalises_complete [("id", .str "augmenting_context")]
    "augmenting_context" "t0" (by rfl) (by decide) (by rfl)


/- ### C6 -/

/-- Counterexample to C6: entity resolution is not exception-free on every
input.  The skeleton resolver `findRegionByName` throws a TypeError on an
absent (`undefined`/`null`) input and on a numeric input, and the heart
resolver `resolveHeartRegionName` throws on a truthy non-string input —
failure is not always signalled by returning `null`. -/
theorem resolver_throws_on_nonstring_input :
    findRegionByName .null = .error (.typeError "name.toLowerCase is not a function") ∧
    findRegionByName (.num 42) = .error (.typeError "name.toLowerCase is not a function") ∧
    resolveHeartRegionName (.num 42) =
      .error (.typeError "input.trim is not a function") := by
  exact ⟨rfl, rfl, rfl⟩

/-- C6 as amended: over a fixed table both resolvers are pure functions
(deterministic by construction of the model), and on every *string* input
they never throw — an unknown name yields `ok none` (the model of
returning `null`).  The heart resolver also returns `null` for every
falsy input.  But a truthy non-string input makes the heart resolver
throw, and any non-string input at all makes the skeleton resolver
throw. -/
theorem resolver_deterministic_string_total (s : String) (v : JVal) :
    (∃ r, resolveHeartRegionName (.str s) = .ok r) ∧
    (∃ r, findRegionByName (.str s) = .ok r) ∧
    resolveHeartRegionName (.str "completely-unknown-name") = .ok none ∧
    (truthy v = false → resolveHeartRegionName v = .ok none) ∧
    (truthy v = true → isStr v = false → ∃ e, resolveHeartRegionName v = .error e) ∧
    (isStr v = false → ∃ e, findRegionByName v = .error e) := by
  refine ⟨?_, ?_, by rfl, ?_, ?_, ?_⟩
  · unfold resolveHeartRegionName
    by_cases h : truthy (.str s) = true
    · simp [h]
    · simp only [Bool.not_eq_true] at h
      simp [h]
  · unfold findRegionByName
    exact ⟨_, rfl⟩
  · intro hf
    unfold resolveHeartRegionName
    simp [hf]
  · intro ht hs
    unfold resolveHeartRegionName
    cases v <;> simp_all [truthy, isStr]
  · intro hs
    unfold findRegionByName
    cases v <;> simp_all [isStr]

/-- Witness for `resolver_deterministic_string_total` at a concrete string
and a concrete non-string value. -/
theorem resolver_deterministic_string_total_witness :
    (∃ r, resolveHeartRegionName (.str "aorta") = .ok r) ∧
    (∃ r, findRegionByName (.str "aorta") = .ok r) ∧
    resolveHeartRegionName (.str "completely-unknown-name") = .ok none ∧
    (truthy (.bool false) = false → resolveHeartRegionName (.bool false) = .ok none) ∧
    (truthy (.bool false) = true → isStr (.bool false) = false →
      ∃ e, resolveHeartRegionName (.bool false) = .error e) ∧
    (isStr (.bool false) = false → ∃ e, findRegionByName (.bool false) = .error e) :=
  resolver_deterministic_string_total "aorta" (.bool false)


/- ### C7 -/

/-- Counterexample to C7: a `toggle_auto_rotation` call with
`enabled: true` succeeds, but `response.detail` carries the hard-coded
`\x7b enabled: false \x7d` rather than echoing the validated `true`, and the
dispatched `SET_AUTO_ROTATE` action is ignored by the brain controller
reducer (which has no such case and no `autoRotate` field), leaving the
state unchanged rather than setting `autoRotate` to `true`. -/
theorem toggle_autorotate_detail_not_echoed :
    (brainHandleCall (ToolCall.mk "toggle_auto_rotation"
        (some (.obj [("enabled", .bool true)])))).map
      (fun p => (p.1.status, getFld p.1.response.detail "enabled", p.2)) =
      .ok ("success", .bool false, [Action.mk "SET_AUTO_ROTATE" (.bool true)]) ∧
    JVal.bool false ≠ JVal.bool true ∧
    brainControllerReducer brainInitialState (Action.mk "SET_AUTO_ROTATE" (.bool true)) =
      brainInitialState := by
  refine ⟨by rfl, ?_, by rfl⟩
  intro h
  exact absurd (congrArg (fun v => match v with | JVal.bool b => b | _ => true) h) (by decide)

/-- C7 as amended: if `enabled` is not a boolean the call fails with
"The enabled flag must be provided." and dispatches nothing, so the state
is unchanged — this half of the claim holds.  If `enabled` is a boolean
`b`, the call succeeds and dispatches `SET_AUTO_ROTATE b`, but the brain
controller reducer ignores that action (its state has no `autoRotate`
field), and `response.detail.enabled` is always `false` regardless of
`b`. -/
theorem toggle_autorotate_validation_noop (fs : List (String × JVal)) (b : Bool)
    (st : BrainState) :
    (isBool (getFld (.obj fs) "enabled") = false →
      brainHandleCall (ToolCall.mk "toggle_auto_rotation" (some (.obj fs))) =
        .ok (errResult "toggle_auto_rotation" "The enabled flag must be provided.", [])) ∧
    (getFld (.obj fs) "enabled" = .bool b →
      ∃ r, brainHandleCall (ToolCall.mk "toggle_auto_rotation" (some (.obj fs))) =
          .ok (r, [Action.mk "SET_AUTO_ROTATE" (.bool b)]) ∧
        r.status = "success" ∧
        r.response.detail = .obj [("enabled", .bool false)] ∧
        brainControllerReducer st (Action.mk "SET_AUTO_ROTATE" (.bool b)) = st) := by
  constructor
  · intro hnb
    unfold brainHandleCall
    simp [rawArgsOf, parseToolArguments, truthy, hnb]
  · intro hb
    refine ⟨{ name := "toggle_auto_rotation", status := "success",
              message := "Auto-rotation is disabled for manual exploration of the brain.",
              response := { status := "success",
                            detail := .obj [("enabled", .bool false)] } }, ?_, rfl, rfl, rfl⟩
    unfold brainHandleCall
    simp [rawArgsOf, parseToolArguments, truthy, hb, isBool]

/-- Witness for `toggle_autorotate_validation_noop` at a concrete missing
flag and a concrete boolean flag. -/
theorem toggle_autorotate_validation_noop_witness :
    ((isBool (getFld (.obj []) "enabled") = false →
      brainHandleCall (ToolCall.mk "toggle_auto_rotation" (some (.obj []))) =
        .ok (errResult "toggle_auto_rotation" "The enabled flag must be provided.", [])) ∧
    (getFld (.obj []) "enabled" = .bool true →
      ∃ r, brainHandleCall (ToolCall.mk "toggle_auto_rotation" (some (.obj []))) =
          .ok (r, [Action.mk "SET_AUTO_ROTATE" (.bool true)]) ∧
        r.status = "success" ∧
        r.response.detail = .obj [("enabled", .bool false)] ∧
        brainControllerReducer brainInitialState
          (Action.mk "SET_AUTO_ROTATE" (.bool true)) = brainInitialState)) ∧
    ((isBool (getFld (.obj [("enabled", .bool true)]) "enabled") = false →
      brainHandleCall (ToolCall.mk "toggle_auto_rotation"
          (some (.obj [("enabled", .bool true)]))) =
        .ok (errResult "toggle_auto_rotation" "The enabled flag must be provided.", [])) ∧
    (getFld (.obj [("enabled", .bool true)]) "enabled" = .bool true →
      ∃ r, brainHandleCall (ToolCall.mk "toggle_auto_rotation"
            (some (.obj [("enabled", .bool true)]))) =
          .ok (r, [Action.mk "SET_AUTO_ROTATE" (.bool true)]) ∧
        r.status = "success" ∧
        r.response.detail = .obj [("enabled", .bool false)] ∧
        brainControllerReducer brainInitialState
          (Action.mk "SET_AUTO_ROTATE" (.bool true)) = brainInitialState)) :=
  ⟨toggle_autorotate_validation_noop [] true brainInitialState,
   toggle_autorotate_validation_noop [("enabled", .bool true)] true brainInitialState⟩


/- ### C8 -/

/-- Counterexample to C8: in the skeleton dispatcher a successfully
resolving highlight call whose `color` fails the hex regex keeps the
invalid input string — both in `response.detail.color` and in the
dispatched highlight payload — instead of falling back to the region's
configured default color `#ff00ff`. -/
theorem skeleton_highlight_accepts_invalid_color :
    hexColorTest "not-a-color" = false ∧
    (findRegionByName (.str "skull")).map (·.map (fun e => e.2.color)) = .ok (some "#ff00ff") ∧
    (skelHandleCall (ToolCall.mk "highlight_skeleton_region"
        (some (.obj [("region", .str "skull"), ("color", .str "not-a-color")])))).map
      (fun p => (p.1.status, getFld p.1.response.detail "color",
        p.2.map (fun a => getFld a.payload "color"))) =
      .ok ("success", .str "not-a-color", [.str "not-a-color"]) ∧
    "not-a-color" ≠ "#ff00ff" :=
  ⟨rfl, rfl, rfl, by decide⟩

theorem highlightSuccess_color_fallback (name key label color cstr : String) (args : JVal)
    (hcol : getFld args "color" = .str cstr) (hhex : hexColorTest (jsTrim cstr) = false) :
    (highlightSuccess name key label color args).1.status = "success" ∧
    getFld (highlightSuccess name key label color args).1.response.detail "color" =
      .str color ∧
    ((highlightSuccess name key label color args).2.map
      (fun a => (a.type, getFld a.payload "color"))) = [("SET_HIGHLIGHT", .str color)] := by
  unfold highlightSuccess
  rw [hcol]
  simp only [hhex, Bool.false_eq_true, if_false]
  set c := jsTrim (match getFld args "comment" with
    | JVal.str s => s
    | _ => match getFld args "detail" with
      | JVal.str s' => s'
      | _ => "") with hc
  refine ⟨by trivial, ?_, by simp [getFld]⟩
  by_cases h : (c == "") = true <;> simp [getFld, h]

/-- C8 as amended: the heart and brain dispatchers do behave as claimed —
a resolvable highlight call whose optional `color` string fails
`^#([0-9a-fA-F]\x7b3\x7d|[0-9a-fA-F]\x7b6\x7d)$` (after trimming) applies and
reports the resolved region's configured default color.  The skeleton
dispatcher instead uses any truthy `color` value verbatim
(`args.color || regionConfig.color`), falling back to the configured
color only when `color` is absent or falsy. -/
theorem highlight_color_fallback_brain_passthrough_skeleton
    (fs fs' : List (String × JVal)) (key cstr rstr cstr' k : String)
    (bdata : BrainRegion) (rc : SkelRegion) :
    (resolveBrainRegionName (getFld (.obj fs) "region") = .ok (some (key, bdata)) →
      getFld (.obj fs) "color" = .str cstr →
      hexColorTest (jsTrim cstr) = false →
      ∃ p, brainHandleCall (ToolCall.mk "highlight_brain_region" (some (.obj fs))) =
          .ok p ∧
        p.1.status = "success" ∧
        getFld p.1.response.detail "color" = .str bdata.color ∧
        p.2.map (fun a => (a.type, getFld a.payload "color")) =
          [("SET_HIGHLIGHT", .str bdata.color)]) ∧
    (getFld (.obj fs') "region" = .str rstr → rstr ≠ "" →
      findRegionByName (.str rstr) = .ok (some (k, rc)) →
      getFld (.obj fs') "color" = .str cstr' → cstr' ≠ "" →
      ∃ p, skelHandleCall (ToolCall.mk "highlight_skeleton_region" (some (.obj fs'))) =
          .ok p ∧
        p.1.status = "success" ∧
        getFld p.1.response.detail "color" = .str cstr' ∧
        p.2.map (fun a => (a.type, a.payload)) =
          [("HIGHLIGHT_REGION",
            .obj [("fileName", .str rc.fileName), ("color", .str cstr')])]) := by
  constructor
  · intro hres hcol hhex
    have heq : brainHandleCall (ToolCall.mk "highlight_brain_region" (some (.obj fs))) =
        .ok (highlightSuccess "highlight_brain_region" key bdata.label bdata.color
          (.obj fs)) := by
      unfold brainHandleCall
      simp only [rawArgsOf, Option.getD, parseToolArguments, truthy, Bool.not_true,
        Bool.false_eq_true, if_false, hres]
    obtain ⟨h1, h2, h3⟩ := highlightSuccess_color_fallback "highlight_brain_region" key
      bdata.label bdata.color cstr (.obj fs) hcol hhex
    exact ⟨_, heq, h1, h2, h3⟩
  · intro hreg hrne hfind hcol' hcne
    have htr : (rstr == "") = false := by simp [hrne]
    have hct : truthyD (.str cstr') (.str rc.color) = .str cstr' := by
      simp [truthyD, truthy, hcne]
    have heq : skelHandleCall (ToolCall.mk "highlight_skeleton_region" (some (.obj fs'))) =
        .ok ({ name := "highlight_skeleton_region", status := "success",
               message := "Highlighting " ++ rc.label ++ " in " ++
                 jsString (.str cstr') ++ ".",
               response := { status := "success",
                             detail := .obj [("region", .str rstr),
                               ("color", .str cstr')] } },
             [{ type := "HIGHLIGHT_REGION",
                payload := .obj [("fileName", .str rc.fileName),
                  ("color", .str cstr')] }]) := by
      unfold skelHandleCall
      simp only [rawArgsOf, Option.getD, parseToolArguments, truthy, Bool.not_true,
        Bool.not_not, Bool.false_eq_true, if_false, hreg, htr, hfind, hcol', hct]
    exact ⟨_, heq, rfl, by simp [getFld], by simp⟩

/-- The cerebellum entry of `BRAIN_REGIONS`, used by the witness below. -/
def cerebellumRegion : BrainRegion :=
  ⟨"Cerebellum", "#8b5cf6", ["cerebellum", "cerebellar"], ["cerebellum"]⟩

/-- The spine entry of `SKELETON_REGIONS`, used by the witness below. -/
def spineRegion : SkelRegion :=
  ⟨"Spine", "#00ffff", ["spine", "vertebrae", "vertebral column", "spinal column",
    "backbone"], "spine"⟩

/-- Witness for `highlight_color_fallback_brain_passthrough_skeleton` at a
concrete brain call and a concrete skeleton call, each with an invalid
color string. -/
theorem highlight_color_fallback_witness :
    (resolveBrainRegionName (getFld (.obj [("region", .str "cerebellum"),
        ("color", .str "not-a-color")]) "region") = .ok (some ("cerebellum",
          cerebellumRegion)) →
      getFld (.obj [("region", .str "cerebellum"), ("color", .str "not-a-color")]) "color" =
        .str "not-a-color" →
      hexColorTest (jsTrim "not-a-color") = false →
      ∃ p, brainHandleCall (ToolCall.mk "highlight_brain_region"
            (some (.obj [("region", .str "cerebellum"), ("color", .str "not-a-color")]))) =
          .ok p ∧
        p.1.status = "success" ∧
        getFld p.1.response.detail "color" = .str cerebellumRegion.color ∧
        p.2.map (fun a => (a.type, getFld a.payload "color")) =
          [("SET_HIGHLIGHT", .str cerebellumRegion.color)]) ∧
    (getFld (.obj [("region", .str "spine"), ("color", .str "bright red")]) "region" =
        .str "spine" → "spine" ≠ "" →
      findRegionByName (.str "spine") = .ok (some ("spine", spineRegion)) →
      getFld (.obj [("region", .str "spine"), ("color", .str "bright red")]) "color" =
        .str "bright red" → "bright red" ≠ "" →
      ∃ p, skelHandleCall (ToolCall.mk "highlight_skeleton_region"
            (some (.obj [("region", .str "spine"), ("color", .str "bright red")]))) =
          .ok p ∧
        p.1.status = "success" ∧
        getFld p.1.response.detail "color" = .str "bright red" ∧
        p.2.map (fun a => (a.type, a.payload)) =
          [("HIGHLIGHT_REGION",
            .obj [("fileName", .str spineRegion.fileName), ("color", .str "bright red")])]) :=
  highlight_color_fallback_brain_passthrough_skeleton
    [("region", .str "cerebellum"), ("color", .str "not-a-color")]
    [("region", .str "spine"), ("color", .str "bright red")]
    "cerebellum" "not-a-color" "spine" "bright red" "spine"
    cerebellumRegion spineRegion


/- ### C9 -/

/-- Counterexample to C9: in the skeleton dispatcher, a successful
`clear_highlighted_region` call dispatches two reducer actions and a
successful `toggle_auto_rotation` call dispatches none — so not every
success dispatches exactly one action. -/
theorem skeleton_clear_toggle_dispatch_counts :
    (skelHandleCall (ToolCall.mk "clear_highlighted_region" none)).map
      (fun p => (p.1.status, p.2.map (·.type))) =
      .ok ("success", ["SET_ANNOTATION", "HIGHLIGHT_REGION"]) ∧
    (skelHandleCall (ToolCall.mk "toggle_auto_rotation" none)).map
      (fun p => (p.1.status, p.2.map (·.type))) =
      .ok ("success", []) :=
  ⟨rfl, rfl⟩

theorem setViewCase_success_count (n : String) (a : JVal) :
    (setViewCase n a).1.status = "success" → (setViewCase n a).2.length = 1 := by
  unfold setViewCase
  by_cases hc : (isFiniteNum (getFld a "azimuth") && isFiniteNum (getFld a "elevation")) = true
  · simp [hc]
  · rw [Bool.not_eq_true] at hc
    simp [hc, errResult]

theorem annotateCase_success_count (n : String) (a : JVal) :
    (annotateCase n a).1.status = "success" → (annotateCase n a).2.length = 1 := by
  unfold annotateCase
  by_cases hc : (!truthy (getFld a "title") || !truthy (getFld a "description")) = true
  · simp [hc, errResult]
  · rw [Bool.not_eq_true] at hc
    simp [hc]

theorem highlightSuccess_count (n k l c : String) (a : JVal) :
    (highlightSuccess n k l c a).2.length = 1 := rfl

/-- C9 as amended: in the heart and brain dispatchers every tool call
that produces a success `ToolResult` dispatches exactly one reducer
action.  In the skeleton dispatcher this holds for every success except
`clear_highlighted_region`, which dispatches two actions, and
`toggle_auto_rotation`, which succeeds while dispatching none. -/
theorem success_dispatch_counts :
    (∀ t p, heartHandleCall t = .ok p → p.1.status = "success" → p.2.length = 1) ∧
    (∀ t p, brainHandleCall t = .ok p → p.1.status = "success" → p.2.length = 1) ∧
    (∀ t p, skelHandleCall t = .ok p → p.1.status = "success" →
      (t.name = "clear_highlighted_region" → p.2.length = 2) ∧
      (t.name = "toggle_auto_rotation" → p.2.length = 0) ∧
      (t.name ≠ "clear_highlighted_region" → t.name ≠ "toggle_auto_rotation" →
        p.2.length = 1)) := by
  refine ⟨?_, ?_, ?_⟩
  · intro t p h hs
    unfold heartHandleCall at h
    dsimp only at h
    split at h
    · split at h
      · exact absurd h (by simp)
      · rw [Except.ok.injEq] at h
        subst h
        exact setViewCase_success_count _ _ hs
    · split at h
      · exact absurd h (by simp)
      · split at h
        · exact absurd h (by simp)
        · rw [Except.ok.injEq] at h
          subst h
          simp [errResult] at hs
        · rw [Except.ok.injEq] at h
          subst h
          exact highlightSuccess_count _ _ _ _ _
    · rw [Except.ok.injEq] at h
      subst h
      rfl
    · split at h
      · exact absurd h (by simp)
      · rw [Except.ok.injEq] at h
        subst h
        exact annotateCase_success_count _ _ hs
    · rw [Except.ok.injEq] at h
      subst h
      simp [unrecognisedCase, errResult] at hs
  · intro t p h hs
    unfold brainHandleCall at h
    dsimp only at h
    split at h
    · split at h
      · exact absurd h (by simp)
      · rw [Except.ok.injEq] at h
        subst h
        exact setViewCase_success_count _ _ hs
    · split at h
      · exact absurd h (by simp)
      · rw [Except.ok.injEq] at h
        subst h
        exact setViewCase_success_count _ _ hs
    · split at h
      · exact absurd h (by simp)
      · split at h
        · exact absurd h (by simp)
        · rw [Except.ok.injEq] at h
          subst h
          simp [errResult] at hs
        · rw [Except.ok.injEq] at h
          subst h
          exact highlightSuccess_count _ _ _ _ _
    · rw [Except.ok.injEq] at h
      subst h
      rfl
    · split at h
      · exact absurd h (by simp)
      · split at h
        · rw [Except.ok.injEq] at h
          subst h
          simp [errResult] at hs
        · rw [Except.ok.injEq] at h
          subst h
          rfl
    · rw [Except.ok.injEq] at h
      subst h
      simp [errResult] at hs
    · split at h
      · exact absurd h (by simp)
      · rw [Except.ok.injEq] at h
        subst h
        exact annotateCase_success_count _ _ hs
    · split at h
      · exact absurd h (by simp)
      · rw [Except.ok.injEq] at h
        subst h
        exact annotateCase_success_count _ _ hs
    · rw [Except.ok.injEq] at h
      subst h
      simp [unrecognisedCase, errResult] at hs
  · intro t p h hs
    unfold skelHandleCall at h
    dsimp only at h
    split at h
    all_goals try rename_i hname
    · split at h
      · exact absurd h (by simp)
      · rw [Except.ok.injEq] at h
        subst h
        refine ⟨?_, ?_, fun _ _ => setViewCase_success_count _ _ hs⟩ <;>
          (intro hn; rw [hname] at hn; exact absurd hn (by decide))
    · split at h
      · exact absurd h (by simp)
      · rw [Except.ok.injEq] at h
        subst h
        refine ⟨?_, ?_, fun _ _ => setViewCase_success_count _ _ hs⟩ <;>
          (intro hn; rw [hname] at hn; exact absurd hn (by decide))
    · split at h
      · exact absurd h (by simp)
      · rw [Except.ok.injEq] at h
        subst h
        refine ⟨?_, ?_, fun _ _ => setViewCase_success_count _ _ hs⟩ <;>
          (intro hn; rw [hname] at hn; exact absurd hn (by decide))
    · split at h
      · exact absurd h (by simp)
      · rw [Except.ok.injEq] at h
        subst h
        refine ⟨?_, ?_, fun _ _ => annotateCase_success_count _ _ hs⟩ <;>
          (intro hn; rw [hname] at hn; exact absurd hn (by decide))
    · split at h
      · exact absurd h (by simp)
      · rw [Except.ok.injEq] at h
        subst h
        refine ⟨?_, ?_, fun _ _ => annotateCase_success_count _ _ hs⟩ <;>
          (intro hn; rw [hname] at hn; exact absurd hn (by decide))
    · rw [Except.ok.injEq] at h
      subst h
      exact ⟨fun _ => rfl, fun hn => absurd (hname ▸ hn) (by decide),
        fun hn _ => absurd hname (by simp_all)⟩
    · split at h
      · exact absurd h (by simp)
      · split at h
        · rw [Except.ok.injEq] at h
          subst h
          simp [errResult] at hs
        · split at h
          · exact absurd h (by simp)
          · rw [Except.ok.injEq] at h
            subst h
            simp [errResult] at hs
          · rw [Except.ok.injEq] at h
            subst h
            refine ⟨?_, ?_, fun _ _ => rfl⟩ <;>
              (intro hn; rw [hname] at hn; exact absurd hn (by decide))
    · rw [Except.ok.injEq] at h
      subst h
      simp [errResult] at hs
    · rw [Except.ok.injEq] at h
      subst h
      exact ⟨fun hn => absurd (hname ▸ hn) (by decide), fun _ => rfl,
        fun _ hn => absurd hname (by simp_all)⟩
    · rw [Except.ok.injEq] at h
      subst h
      simp [unrecognisedCase, errResult] at hs


/-- Witness for `success_dispatch_counts`: the three dispatchers applied
to concrete successful calls (heart clear, brain clear, skeleton
clear). -/
theorem success_dispatch_counts_witness :
    ((({ name := "clear_highlighted_region", status := "success",
         message := "Cleared highlighted region.",
         response := { status := "success",
                       detail := JVal.str "Cleared highlighted region." } },
       [Action.mk "CLEAR_HIGHLIGHT" JVal.null]) : ToolResult × List Action).2.length = 1) ∧
    ((({ name := "clear_highlighted_region", status := "success",
         message := "Cleared highlighted region.",
         response := { status := "success",
                       detail := JVal.str "Cleared highlighted region." } },
       [Action.mk "CLEAR_HIGHLIGHT" JVal.null]) : ToolResult × List Action).2.length = 1) ∧
    (("clear_highlighted_region" = "clear_highlighted_region" →
      ((({ name := "clear_highlighted_region", status := "success",
           message := "Cleared any active annotations and highlights for the skeleton.",
           response := { status := "success",
                         detail := JVal.str "Annotations and highlights cleared." } },
         [Action.mk "SET_ANNOTATION" JVal.null, Action.mk "HIGHLIGHT_REGION" JVal.null]) :
           ToolResult × List Action)).2.length = 2)) := by
  refine ⟨?_, ?_, ?_⟩
  · exact success_dispatch_counts.1 (ToolCall.mk "clear_highlighted_region" none) _ rfl rfl
  · exact success_dispatch_counts.2.1 (ToolCall.mk "clear_highlighted_region" none) _ rfl rfl
  · exact (success_dispatch_counts.2.2 (ToolCall.mk "clear_highlighted_region" none) _
      rfl rfl).1


/- ### C1 -/

/-- Counterexample to C1: a batch containing a highlight call whose
`region` argument is a truthy non-string (here the number 42) makes the
dispatcher throw a TypeError (`.trim()` / `.toLowerCase()` is called on a
non-string), so no result list is returned at all — the 1:1 invariant
does not hold for every batch. -/
theorem dispatcher_batch_throws_on_nonstring_region :
    heartApplyToolCalls
        [ToolCall.mk "highlight_heart_region" (some (.obj [("region", .num 42)]))] =
      .error (.typeError "input.trim is not a function") ∧
    skelApplyToolCalls
        [ToolCall.mk "highlight_skeleton_region" (some (.obj [("region", .num 42)]))] =
      .error (.typeError "name.toLowerCase is not a function") ∧
    (heartApplyToolCalls
        [ToolCall.mk "highlight_heart_region" (some (.obj [("region", .num 42)]))]).isOk
      = false :=
  ⟨rfl, rfl, rfl⟩

theorem setViewCase_name (n : String) (a : JVal) : (setViewCase n a).1.name = n := by
  unfold setViewCase
  by_cases hc : (isFiniteNum (getFld a "azimuth") && isFiniteNum (getFld a "elevation")) = true
  · simp [hc]
  · rw [Bool.not_eq_true] at hc
    simp [hc, errResult]

theorem annotateCase_name (n : String) (a : JVal) : (annotateCase n a).1.name = n := by
  unfold annotateCase
  by_cases hc : (!truthy (getFld a "title") || !truthy (getFld a "description")) = true
  · simp [hc, errResult]
  · rw [Bool.not_eq_true] at hc
    simp [hc]

theorem heartHandleCall_name (t : ToolCall) (p : ToolResult × List Action)
    (h : heartHandleCall t = .ok p) : p.1.name = t.name := by
  unfold heartHandleCall at h
  dsimp only at h
  split at h
  · split at h
    · exact absurd h (by simp)
    · rw [Except.ok.injEq] at h; subst h; exact setViewCase_name _ _
  · split at h
    · exact absurd h (by simp)
    · split at h
      · exact absurd h (by simp)
      · rw [Except.ok.injEq] at h; subst h; rfl
      · rw [Except.ok.injEq] at h; subst h; rfl
  · rw [Except.ok.injEq] at h; subst h; rfl
  · split at h
    · exact absurd h (by simp)
    · rw [Except.ok.injEq] at h; subst h; exact annotateCase_name _ _
  · rw [Except.ok.injEq] at h; subst h; rfl

theorem skelHandleCall_name (t : ToolCall) (p : ToolResult × List Action)
    (h : skelHandleCall t = .ok p) : p.1.name = t.name := by
  unfold skelHandleCall at h
  dsimp only at h
  split at h
  · split at h
    · exact absurd h (by simp)
    · rw [Except.ok.injEq] at h; subst h; exact setViewCase_name _ _
  · split at h
    · exact absurd h (by simp)
    · rw [Except.ok.injEq] at h; subst h; exact setViewCase_name _ _
  · split at h
    · exact absurd h (by simp)
    · rw [Except.ok.injEq] at h; subst h; exact setViewCase_name _ _
  · split at h
    · exact absurd h (by simp)
    · rw [Except.ok.injEq] at h; subst h; exact annotateCase_name _ _
  · split at h
    · exact absurd h (by simp)
    · rw [Except.ok.injEq] at h; subst h; exact annotateCase_name _ _
  · rw [Except.ok.injEq] at h; subst h; rfl
  · split at h
    · exact absurd h (by simp)
    · split at h
      · rw [Except.ok.injEq] at h; subst h; rfl
      · split at h
        · exact absurd h (by simp)
        · rw [Except.ok.injEq] at h; subst h; rfl
        · rw [Except.ok.injEq] at h; subst h; rfl
  · rw [Except.ok.injEq] at h; subst h; rfl
  · rw [Except.ok.injEq] at h; subst h; rfl
  · rw [Except.ok.injEq] at h; subst h; rfl

theorem tryMap_ok_names (f : ToolCall → Except JsErr (ToolResult × List Action))
    (hf : ∀ t p, f t = .ok p → p.1.name = t.name) :
    ∀ calls rs, tryMap f calls = .ok rs →
      rs.length = calls.length ∧ rs.map (fun p => p.1.name) = calls.map (·.name) := by
  intro calls
  induction calls with
  | nil =>
    intro rs h
    unfold tryMap at h
    rw [Except.ok.injEq] at h
    subst h
    simp
  | cons c cs ih =>
    intro rs h
    unfold tryMap at h
    cases hc : f c with
    | error e => rw [hc] at h; exact absurd h (by simp)
    | ok r =>
      rw [hc] at h
      cases ht : tryMap f cs with
      | error e => rw [ht] at h; exact absurd h (by simp)
      | ok rs' =>
        rw [ht] at h
        rw [Except.ok.injEq] at h
        subst h
        obtain ⟨hl, hn⟩ := ih rs' ht
        exact ⟨by simp [hl], by simp [hf c r hc, hn]⟩

/-- C1 as amended: whenever the heart or skeleton `applyToolCalls`
returns a result list (it throws — returning nothing — exactly when a
highlight call carries a truthy non-string `region`, see the
counterexample), that list has exactly one `ToolResult` per input
`ToolCall`, in input order (the i-th result carries the i-th call's
name), however many calls fail validation or carry unrecognised names. -/
theorem dispatcher_one_result_per_call (calls : List ToolCall)
    (rsH rsS : List (ToolResult × List Action)) :
    (heartApplyToolCalls calls = .ok rsH →
      rsH.length = calls.length ∧
      rsH.map (fun p => p.1.name) = calls.map (·.name)) ∧
    (skelApplyToolCalls calls = .ok rsS →
      rsS.length = calls.length ∧
      rsS.map (fun p => p.1.name) = calls.map (·.name)) :=
  ⟨fun h => tryMap_ok_names heartHandleCall heartHandleCall_name calls rsH h,
   fun h => tryMap_ok_names skelHandleCall skelHandleCall_name calls rsS h⟩

/-- Witness for `dispatcher_one_result_per_call`: a concrete two-call
batch — one valid camera move and one unknown tool — yields exactly two
results in order. -/
theorem dispatcher_one_result_per_call_witness :
    ((heartApplyToolCalls
        [ToolCall.mk "set_heart_view"
          (some (.obj [("azimuth", .num 10), ("elevation", .num 5)])),
         ToolCall.mk "bogus_tool" none]).toOption.getD []).length = 2 ∧
    ((heartApplyToolCalls
        [ToolCall.mk "set_heart_view"
          (some (.obj [("azimuth", .num 10), ("elevation", .num 5)])),
         ToolCall.mk "bogus_tool" none]).toOption.getD []).map (fun p => p.1.name) =
      ["set_heart_view", "bogus_tool"] := by
  have h := (dispatcher_one_result_per_call
    [ToolCall.mk "set_heart_view"
      (some (.obj [("azimuth", .num 10), ("elevation", .num 5)])),
     ToolCall.mk "bogus_tool" none]
    ((heartApplyToolCalls
      [ToolCall.mk "set_heart_view"
        (some (.obj [("azimuth", .num 10), ("elevation", .num 5)])),
       ToolCall.mk "bogus_tool" none]).toOption.getD []) []).1 (by rfl)
  exact ⟨h.1, h.2⟩


/- ### C5 -/

/-- Counterexample to C5: the dispatcher of the older brain experience in
`part_007` never parses string arguments.  For a `toggle_auto_rotation`
call the raw JSON text `\x7b"enabled":true\x7d` and the equal parsed object
behave differently: the string form fails validation ("The enabled flag
must be provided.") while the object form succeeds. -/
theorem part007_string_object_arguments_differ :
    jsonParse "\x7b\"enabled\":true\x7d" = some (.obj [("enabled", .bool true)]) ∧
    (brain07ApplyToolCalls [ToolCall.mk "toggle_auto_rotation"
        (some (.str "\x7b\"enabled\":true\x7d"))]).map (List.map (fun p => p.1.status)) =
      .ok ["error"] ∧
    (brain07ApplyToolCalls [ToolCall.mk "toggle_auto_rotation"
        (some (.obj [("enabled", .bool true)]))]).map (List.map (fun p => p.1.status)) =
      .ok ["success"] :=
  ⟨rfl, rfl, rfl⟩

/-- C5 as amended: `parseToolArguments` — used by the skeleton and brain
experience dispatchers and the heart variant in `part_010` — behaves as
the claim states: a string that fails to parse, or parses to a non-object,
becomes `\x7b\x7d` without raising; an already-parsed object passes through
unchanged; and a raw-JSON string and its equal parsed object make those
dispatchers behave identically.  The heart dispatcher in Root.jsx and the
older brain dispatcher in `part_007`, however, use `arguments` raw and
never attempt the parse (see the counterexample). -/
theorem parse_tool_arguments_failsoft (s : String) (v : JVal)
    (fs : List (String × JVal)) (n : String) :
    (jsonParse s = none → parseToolArguments (.str s) = .obj []) ∧
    (jsonParse s = some v → (truthy v && typeofIsObject v) = false →
      parseToolArguments (.str s) = .obj []) ∧
    (parseToolArguments (.obj fs) = .obj fs) ∧
    (jsonParse s = some (.obj fs) →
      skelHandleCall (ToolCall.mk n (some (.str s))) =
        skelHandleCall (ToolCall.mk n (some (.obj fs)))) ∧
    (jsonParse s = some (.obj fs) →
      brainHandleCall (ToolCall.mk n (some (.str s))) =
        brainHandleCall (ToolCall.mk n (some (.obj fs)))) := by
  have hobj : parseToolArguments (.obj fs) = .obj fs := rfl
  have hstr : ∀ gs : List (String × JVal), jsonParse s = some (.obj gs) →
      parseToolArguments (.str s) = .obj gs := by
    intro gs hp
    have hne : s ≠ "" := by
      intro he
      subst he
      exact absurd hp (by simp [jsonParse, parseVal, skipWs, parseNumber])
    unfold parseToolArguments
    simp [truthy, hne, hp, typeofIsObject]
  refine ⟨?_, ?_, hobj, ?_, ?_⟩
  · intro hp
    by_cases hs : s = ""
    · subst hs; rfl
    · unfold parseToolArguments
      simp [truthy, hs, hp]
  · intro hp hv
    by_cases hs : s = ""
    · subst hs; rfl
    · unfold parseToolArguments
      simp [truthy, hs, hp]
      intro h1 h2
      exfalso
      rw [show truthy v = true from h1, h2] at hv
      exact absurd hv (by simp)
  · intro hp
    have hpp : parseToolArguments (rawArgsOf (ToolCall.mk n (some (.str s)))) =
        parseToolArguments (rawArgsOf (ToolCall.mk n (some (.obj fs)))) := by
      simp only [rawArgsOf, Option.getD]
      rw [hstr fs hp, hobj]
    unfold skelHandleCall
    dsimp only
    rw [hpp]
  · intro hp
    have hpp : parseToolArguments (rawArgsOf (ToolCall.mk n (some (.str s)))) =
        parseToolArguments (rawArgsOf (ToolCall.mk n (some (.obj fs)))) := by
      simp only [rawArgsOf, Option.getD]
      rw [hstr fs hp, hobj]
    unfold brainHandleCall
    dsimp only
    rw [hpp]

/-- Witness for `parse_tool_arguments_failsoft` at concrete inputs: a
non-JSON string, a JSON string with a non-object value, a parsed object,
and the equal string/object pair of the counterexample. -/
theorem parse_tool_arguments_failsoft_witness :
    (parseToolArguments (.str "not json") = .obj []) ∧
    (parseToolArguments (.str "3") = .obj []) ∧
    (parseToolArguments (.obj [("enabled", .bool true)]) = .obj [("enabled", .bool true)]) ∧
    (skelHandleCall (ToolCall.mk "toggle_auto_rotation"
        (some (.str "\x7b\"enabled\":true\x7d"))) =
      skelHandleCall (ToolCall.mk "toggle_auto_rotation"
        (some (.obj [("enabled", .bool true)])))) ∧
    (brainHandleCall (ToolCall.mk "toggle_auto_rotation"
        (some (.str "\x7b\"enabled\":true\x7d"))) =
      brainHandleCall (ToolCall.mk "toggle_auto_rotation"
        (some (.obj [("enabled", .bool true)])))) := by
  obtain ⟨h1, _, h3, _, _⟩ := parse_tool_arguments_failsoft "not json" JVal.null
    [("enabled", .bool true)] "toggle_auto_rotation"
  obtain ⟨_, h2, _, _, _⟩ := parse_tool_arguments_failsoft "3" (.num 3)
    [("enabled", .bool true)] "toggle_auto_rotation"
  obtain ⟨_, _, _, h4, h5⟩ := parse_tool_arguments_failsoft "\x7b\"enabled\":true\x7d"
    JVal.null [("enabled", .bool true)] "toggle_auto_rotation"
  exact ⟨h1 (by rfl), h2 (by rfl) (by rfl), h3, h4 (by rfl), h5 (by rfl)⟩


/- ### C4 -/

/-- Counterexample to C4: queued steps are not applied FIFO in arrival
order within a batch.  A batch arriving as
`[rendering_reply, reading_prompt]` is canonically sorted *before being
enqueued*, so the step applied by the first timer is `reading_prompt` —
the second arrival — while `rendering_reply`, the first arrival, is still
queued. -/
theorem batch_application_not_fifo_within_batch :
    ([JVal.obj [("id", .str "rendering_reply"), ("status", .str "complete")],
      JVal.obj [("id", .str "reading_prompt"), ("status", .str "complete")]].map
        (fun j => getFld j "id")) =
      [.str "rendering_reply", .str "reading_prompt"] ∧
    (updateFromServer initState
        [.obj [("id", .str "rendering_reply"), ("status", .str "complete")],
         .obj [("id", .str "reading_prompt"), ("status", .str "complete")]] "t0").queue.map
      (·.id) = [.str "rendering_reply"] ∧
    ((fireTimer (updateFromServer initState
        [.obj [("id", .str "rendering_reply"), ("status", .str "complete")],
         .obj [("id", .str "reading_prompt"), ("status", .str "complete")]] "t0") 0).steps.map
      (·.id)) = [.str "reading_prompt"] :=
  ⟨rfl, rfl, rfl⟩

/-- C4 as amended: batches are FIFO *across* calls — `enqueueSteps`
appends each normalised batch to the tail of the queue and `processQueue`
only ever consumes the head — but *within* a batch the steps are first
canonically sorted (`sortSteps`) before being enqueued, so the
application order inside one batch is canonical pipeline order, not
arrival order; the canonical sort is thus applied both to the visible
list for display and to each incoming batch's application order. -/
theorem batch_applied_in_canonical_order (st : SchedState) (batch : List JVal) (now : String)
    (hn : batch.filterMap (fun j => (normaliseStep j now).toOption) ≠ []) :
    (st.isAnimating = true →
      (enqueueSteps st batch now).queue =
        st.queue ++ sortSteps (batch.filterMap (fun j => (normaliseStep j now).toOption)) ∧
      (enqueueSteps st batch now).timers = st.timers) ∧
    (st.isAnimating = false →
      (enqueueSteps st batch now).queue =
        (st.queue ++
          sortSteps (batch.filterMap (fun j => (normaliseStep j now).toOption))).drop 1 ∧
      ∃ x rest,
        st.queue ++ sortSteps (batch.filterMap (fun j => (normaliseStep j now).toOption)) =
          x :: rest ∧
        (enqueueSteps st batch now).timers = st.timers ++ [(st.nextId, x)]) := by
  have hb : batch.isEmpty = false := by
    cases batch with
    | nil => exact absurd rfl hn
    | cons a l => rfl
  have hnl : (batch.filterMap (fun j => (normaliseStep j now).toOption)).isEmpty = false := by
    cases hfm : batch.filterMap (fun j => (normaliseStep j now).toOption) with
    | nil => exact absurd hfm hn
    | cons a l => rfl
  have hq : st.queue ++ sortSteps (batch.filterMap (fun j => (normaliseStep j now).toOption))
      ≠ [] := by
    intro he
    rcases List.append_eq_nil.mp he with ⟨-, hs⟩
    apply hn
    have hlen : (sortSteps (batch.filterMap (fun j => (normaliseStep j now).toOption))).length =
        (batch.filterMap (fun j => (normaliseStep j now).toOption)).length :=
      (sortSteps_perm _).length_eq
    refine List.eq_nil_of_length_eq_zero ?_
    rw [← hlen, hs]
    rfl
  constructor
  · intro ha
    unfold enqueueSteps
    simp only [hb, Bool.false_eq_true, if_false, hnl]
    unfold processQueue
    simp [ha]
  · intro ha
    obtain ⟨x, rest, hxr⟩ := List.exists_cons_of_ne_nil hq
    unfold enqueueSteps
    simp only [hb, Bool.false_eq_true, if_false, hnl]
    unfold processQueue
    simp only [ha, Bool.false_eq_true, if_false]
    rw [hxr]
    exact ⟨by simp, x, rest, rfl, rfl⟩

/-- Witness for `batch_applied_in_canonical_order`: the idle initial
state receiving a concrete one-step batch. -/
theorem batch_applied_in_canonical_order_witness :
    (initState.isAnimating = true →
      (enqueueSteps initState [JVal.obj [("id", .str "rendering_reply")]] "t0").queue =
        initState.queue ++ sortSteps ([JVal.obj [("id", .str "rendering_reply")]].filterMap
          (fun j => (normaliseStep j "t0").toOption)) ∧
      (enqueueSteps initState [JVal.obj [("id", .str "rendering_reply")]] "t0").timers =
        initState.timers) ∧
    (initState.isAnimating = false →
      (enqueueSteps initState [JVal.obj [("id", .str "rendering_reply")]] "t0").queue =
        (initState.queue ++ sortSteps ([JVal.obj [("id", .str "rendering_reply")]].filterMap
          (fun j => (normaliseStep j "t0").toOption))).drop 1 ∧
      ∃ x rest,
        initState.queue ++ sortSteps ([JVal.obj [("id", .str "rendering_reply")]].filterMap
          (fun j => (normaliseStep j "t0").toOption)) = x :: rest ∧
        (enqueueSteps initState [JVal.obj [("id", .str "rendering_reply")]] "t0").timers =
          initState.timers ++ [(initState.nextId, x)]) :=
  batch_applied_in_canonical_order initState [JVal.obj [("id", .str "rendering_reply")]] "t0"
    (by
      have hfm : [JVal.obj [("id", .str "rendering_reply")]].filterMap
          (fun j => (normaliseStep j "t0").toOption) =
          [Step.mk (.str "rendering_reply") (.str "Rendering final reply")
            (.str "complete") .null (.str "t0")] := rfl
      rw [hfm]
      exact List.cons_ne_nil _ _)


/- ### C2 -/

theorem upsertStep_no_hit (acc : List Step) (s : Step)
    (h : ∀ t ∈ acc, JVal.beq t.id s.id = false) : upsertStep acc s = acc ++ [s] := by
  unfold upsertStep
  have hany : acc.any (fun t => JVal.beq t.id s.id) = false := by
    rw [List.any_eq_false]
    intro t ht
    simp [h t ht]
  simp [hany]

theorem foldl_upsertStep_unique :
    ∀ (l acc : List Step),
      (acc ++ l).Pairwise (fun a b => JVal.beq a.id b.id = false) →
      List.foldl upsertStep acc l = acc ++ l := by
  intro l
  induction l with
  | nil => intro acc _; simp
  | cons x xs ih =>
    intro acc h
    have hx : ∀ t ∈ acc, JVal.beq t.id x.id = false := by
      intro t ht
      exact (List.pairwise_append.mp h).2.2 t ht x (by simp)
    rw [List.foldl_cons, upsertStep_no_hit acc x hx]
    have h' : ((acc ++ [x]) ++ xs).Pairwise (fun a b => JVal.beq a.id b.id = false) := by
      simpa [List.append_assoc] using h
    rw [ih (acc ++ [x]) h']
    simp

theorem stepMapFromList_unique (l : List Step)
    (h : l.Pairwise (fun a b => JVal.beq a.id b.id = false)) : stepMapFromList l = l := by
  unfold stepMapFromList
  have := foldl_upsertStep_unique l [] (by simpa using h)
  simpa using this

theorem find?_first_unique :
    ∀ (l : List Step) (ex : Step) (sid : String),
      l.Pairwise (fun a b => JVal.beq a.id b.id = false) →
      ex ∈ l → ex.id = .str sid →
      l.find? (fun t => JVal.beq t.id (.str sid)) = some ex := by
  intro l
  induction l with
  | nil => intro ex sid _ hmem _; exact absurd hmem (by simp)
  | cons y ys ih =>
    intro ex sid hp hmem hid
    rcases List.mem_cons.mp hmem with rfl | hmem'
    · have hpy : JVal.beq ex.id (.str sid) = true := by
        rw [hid]
        simp [JVal.beq]
      simp [List.find?_cons, hpy]
    · have hskip : JVal.beq y.id ex.id = false :=
        (List.pairwise_cons.mp hp).1 ex hmem'
      have hps : JVal.beq y.id (.str sid) = false := by rw [← hid]; exact hskip
      rw [List.find?_cons, hps]
      exact ih ex sid (List.pairwise_cons.mp hp).2 hmem' hid

/-- C2: merging a queued step whose id already exists in the visible list
replaces the status only when the incoming status's priority is at least
the existing one (so the merged priority never regresses below the
existing priority), while an incoming non-null `detail` always replaces
the existing detail, even when the incoming status is ignored. -/
theorem trace_merge_no_status_regression (prev : List Step) (ex n : Step) (sid : String)
    (huniq : prev.Pairwise (fun a b => JVal.beq a.id b.id = false))
    (hex : ex ∈ prev) (hexid : ex.id = .str sid) (hnid : n.id = .str sid) :
    ∃ m ∈ applyNormalisedStep prev n,
      m.id = ex.id ∧
      m.status = (if statusPriority ex.status ≤ statusPriority n.status then n.status
        else ex.status) ∧
      statusPriority ex.status ≤ statusPriority m.status ∧
      (n.detail ≠ .null → m.detail = n.detail) := by
  have hmap : stepMapFromList prev = prev := stepMapFromList_unique prev huniq
  have hfind : prev.find? (fun t => JVal.beq t.id n.id) = some ex := by
    rw [hnid]
    exact find?_first_unique prev ex sid huniq hex hexid
  unfold applyNormalisedStep
  dsimp only
  rw [hmap]
  simp only [hfind]
  refine ⟨mergeStep ex n, ?_, rfl, rfl, ?_, ?_⟩
  · apply mem_sortSteps
    have hfx : (if JVal.beq ex.id n.id then mergeStep ex n else ex) = mergeStep ex n := by
      rw [hexid, hnid]
      simp [JVal.beq]
    have hmm := List.mem_map_of_mem (fun t =>
      if JVal.beq t.id n.id then mergeStep ex n else t) hex
    dsimp only at hmm
    rwa [hfx] at hmm
  · unfold mergeStep
    dsimp only
    split
    · next h => exact h
    · exact le_refl _
  · intro hd
    unfold mergeStep
    dsimp only
    exact nullishD_of_ne_null hd

/-- Witness for `trace_merge_no_status_regression`: a stale `pending`
update for `dispatching_to_gemini` arriving after `complete` keeps the
visible status `complete` while its non-null detail replaces the existing
one. -/
theorem trace_merge_no_status_regression_witness :
    ∃ m ∈ applyNormalisedStep
        [Step.mk (.str "dispatching_to_gemini") (.str "Dispatching to Gemini")
          (.str "complete") .null (.str "t0")]
        (Step.mk (.str "dispatching_to_gemini") (.str "Dispatching to Gemini")
          (.str "pending") (.str "late detail") (.str "t1")),
      m.id = (Step.mk (.str "dispatching_to_gemini") (.str "Dispatching to Gemini")
        (.str "complete") .null (.str "t0")).id ∧
      m.status = (if statusPriority (Step.mk (.str "dispatching_to_gemini")
            (.str "Dispatching to Gemini") (.str "complete") .null (.str "t0")).status ≤
          statusPriority (Step.mk (.str "dispatching_to_gemini")
            (.str "Dispatching to Gemini") (.str "pending") (.str "late detail")
            (.str "t1")).status
        then (Step.mk (.str "dispatching_to_gemini") (.str "Dispatching to Gemini")
          (.str "pending") (.str "late detail") (.str "t1")).status
        else (Step.mk (.str "dispatching_to_gemini") (.str "Dispatching to Gemini")
          (.str "complete") .null (.str "t0")).status) ∧
      statusPriority (Step.mk (.str "dispatching_to_gemini") (.str "Dispatching to Gemini")
        (.str "complete") .null (.str "t0")).status ≤ statusPriority m.status ∧
      ((Step.mk (.str "dispatching_to_gemini") (.str "Dispatching to Gemini")
        (.str "pending") (.str "late detail") (.str "t1")).detail ≠ .null →
        m.detail = (Step.mk (.str "dispatching_to_gemini") (.str "Dispatching to Gemini")
          (.str "pending") (.str "late detail") (.str "t1")).detail) :=
  trace_merge_no_status_regression
    [Step.mk (.str "dispatching_to_gemini") (.str "Dispatching to Gemini")
      (.str "complete") .null (.str "t0")]
    (Step.mk (.str "dispatching_to_gemini") (.str "Dispatching to Gemini")
      (.str "complete") .null (.str "t0"))
    (Step.mk (.str "dispatching_to_gemini") (.str "Dispatching to Gemini")
      (.str "pending") (.str "late detail") (.str "t1"))
    "dispatching_to_gemini"
    (List.pairwise_singleton _ _) (by simp) rfl rfl


/- ### C3 -/

/-- The scheduler's timer invariant: either idle (no timer outstanding,
no ref, guard down) or draining (exactly one outstanding timer, pointed
to by the ref, guard up), and every outstanding handle is older than the
fresh-handle counter. -/
def TimerInv (s : SchedState) : Prop :=
  ((s.isAnimating = false ∧ s.timers = [] ∧ s.currentHandle = none) ∨
   (s.isAnimating = true ∧ ∃ h x, s.timers = [(h, x)] ∧ s.currentHandle = some h)) ∧
  ∀ p ∈ s.timers, p.1 < s.nextId

theorem clearAnim_inv (s : SchedState) (h : TimerInv s) :
    clearAnimationTimer s =
      { s with timers := [], currentHandle := none, isAnimating := false } := by
  obtain ⟨hshape, -⟩ := h
  rcases hshape with ⟨ha, ht, hc⟩ | ⟨ha, hh, x, ht, hc⟩
  · cases s
    dsimp only at ht hc ⊢
    subst ht hc
    rfl
  · cases s
    dsimp only at ht hc ⊢
    subst ht hc
    unfold clearAnimationTimer
    simp

theorem inv_queue_set (s : SchedState) (q : List Step) (h : TimerInv s) :
    TimerInv { s with queue := q } := h

theorem inv_processQueue (s : SchedState) (h : TimerInv s) : TimerInv (processQueue s) := by
  obtain ⟨hshape, hfresh⟩ := h
  unfold processQueue
  rcases hshape with ⟨ha, ht, hc⟩ | ⟨ha, hh, x, ht, hc⟩
  · simp only [ha, Bool.false_eq_true, if_false]
    cases hq : s.queue with
    | nil => exact ⟨Or.inl ⟨ha, ht, hc⟩, hfresh⟩
    | cons y ys =>
      constructor
      · right
        exact ⟨rfl, s.nextId, y, by rw [ht]; rfl, rfl⟩
      · intro p hp
        rw [ht] at hp
        simp only [List.nil_append, List.mem_singleton] at hp
        subst hp
        exact Nat.lt_succ_self _
  · simp only [ha, if_true]
    exact ⟨Or.inr ⟨ha, hh, x, ht, hc⟩, hfresh⟩

theorem inv_enqueue (s : SchedState) (batch : List JVal) (now : String) (h : TimerInv s) :
    TimerInv (enqueueSteps s batch now) := by
  unfold enqueueSteps
  split
  · exact h
  · dsimp only
    split
    · exact h
    · exact inv_processQueue _ (inv_queue_set s _ h)

theorem inv_fireTimer (s : SchedState) (h' : Nat) (h : TimerInv s) :
    TimerInv (fireTimer s h') := by
  obtain ⟨hshape, hfresh⟩ := h
  unfold fireTimer
  cases hf : s.timers.find? (fun p => p.1 == h') with
  | none => exact ⟨hshape, hfresh⟩
  | some p =>
    rcases hshape with ⟨ha, ht, hc⟩ | ⟨ha, hh, x, ht, hc⟩
    · rw [ht] at hf
      exact absurd hf (by simp)
    · rw [ht] at hf
      simp only [List.find?_cons] at hf
      by_cases hbh : (hh == h') = true
      · have hhh : hh = h' := by simpa using hbh
        apply inv_processQueue
        constructor
        · left
          refine ⟨rfl, ?_, rfl⟩
          show s.timers.filter (fun q => q.1 != h') = []
          rw [ht]
          subst hhh
          simp
        · intro q hq
          have hq' : q ∈ s.timers := List.mem_of_mem_filter hq
          exact hfresh q hq'
      · have hbh' : (hh == h') = false := by simpa using hbh
        rw [hbh'] at hf
        exact absurd hf (by simp)

/-- The three seed steps after normalisation (the timestamp term keeps the
unevaluated `now || now` truthiness-or, which is `now` either way). -/
def seedStep1 (now : String) : Step :=
  ⟨.str "reading_prompt", .str "Reading user prompt", .str "in-progress", .null,
    truthyD (.str now) (.str now)⟩

def seedStep2 (now : String) : Step :=
  ⟨.str "augmenting_context", .str "Augmenting context", .str "pending", .null,
    truthyD (.str now) (.str now)⟩

def seedStep3 (now : String) : Step :=
  ⟨.str "dispatching_to_gemini", .str "Dispatching to Gemini", .str "pending", .null,
    truthyD (.str now) (.str now)⟩

theorem startTrace_eq (s : SchedState) (now : String) (h : TimerInv s) :
    startTrace s now = SchedState.mk [] [seedStep2 now, seedStep3 now]
      [(s.nextId, seedStep1 now)] (some s.nextId) true (s.nextId + 1) := by
  unfold startTrace
  rw [clearAnim_inv s h]
  rfl

theorem clearTrace_eq (s : SchedState) (h : TimerInv s) :
    clearTrace s = SchedState.mk [] [] [] none false s.nextId := by
  unfold clearTrace
  rw [clearAnim_inv s h]

theorem inv_startTrace (s : SchedState) (now : String) (h : TimerInv s) :
    TimerInv (startTrace s now) := by
  rw [startTrace_eq s now h]
  constructor
  · right
    exact ⟨rfl, s.nextId, seedStep1 now, rfl, rfl⟩
  · intro p hp
    simp only [List.mem_singleton] at hp
    subst hp
    exact Nat.lt_succ_self _

/-- Every reachable scheduler state satisfies the timer invariant. -/
theorem reach_inv (s : SchedState) (h : Reach s) : TimerInv s := by
  induction h with
  | init =>
    refine ⟨Or.inl ⟨rfl, rfl, rfl⟩, ?_⟩
    intro p hp
    exact absurd hp (by simp [initState])
  | start s now _ ih => exact inv_startTrace s now ih
  | update s batch now _ ih => exact inv_enqueue s batch now ih
  | final s status detail now _ ih => exact inv_enqueue s _ now ih
  | clear s _ ih =>
    rw [clearTrace_eq s ih]
    exact ⟨Or.inl ⟨rfl, rfl, rfl⟩, by intro p hp; exact absurd hp (by simp)⟩
  | fire s h' _ ih => exact inv_fireTimer s h' ih

/-- C3: in every reachable scheduler state at most one animation timer is
outstanding; `clearTrace` synchronously cancels any outstanding timer and
discards the queue and visible list; after `startTrace()` immediately
followed by `clearTrace()` before any timer fires, the visible step list
is empty and no timer callback (for any handle) ever mutates it; and the
one timer `startTrace` leaves outstanding is fresh — its handle differs
from every handle outstanding before the call, whose timers were
cancelled. -/
theorem scheduler_single_timer_and_reset (s : SchedState) (now : String) (h' : Nat)
    (hs : Reach s) :
    s.timers.length ≤ 1 ∧
    (clearTrace s).steps = [] ∧ (clearTrace s).queue = [] ∧ (clearTrace s).timers = [] ∧
    (clearTrace (startTrace s now)).steps = [] ∧
    (clearTrace (startTrace s now)).timers = [] ∧
    (fireTimer (clearTrace (startTrace s now)) h').steps = [] ∧
    ((startTrace s now).timers.all (fun p => s.timers.all (fun q => p.1 != q.1))) = true := by
  have hinv := reach_inv s hs
  have hst := startTrace_eq s now hinv
  have hinv' := inv_startTrace s now hinv
  have hct := clearTrace_eq s hinv
  have hct' := clearTrace_eq (startTrace s now) hinv'
  refine ⟨?_, by rw [hct], by rw [hct], by rw [hct], by rw [hct'], by rw [hct'], ?_, ?_⟩
  · rcases hinv.1 with ⟨-, ht, -⟩ | ⟨-, hh, x, ht, -⟩ <;> rw [ht] <;> simp
  · rw [hct']
    rfl
  · rw [hst]
    simp only [List.all_cons, List.all_nil, Bool.and_true]
    rw [List.all_eq_true]
    intro q hq
    have hlt := hinv.2 q hq
    simpa using (Nat.ne_of_gt hlt)

/-- Witness for `scheduler_single_timer_and_reset` at the initial state,
a concrete clock value and a concrete timer handle. -/
theorem scheduler_single_timer_and_reset_witness :
    initState.timers.length ≤ 1 ∧
    (clearTrace initState).steps = [] ∧ (clearTrace initState).queue = [] ∧
    (clearTrace initState).timers = [] ∧
    (clearTrace (startTrace initState "t0")).steps = [] ∧
    (clearTrace (startTrace initState "t0")).timers = [] ∧
    (fireTimer (clearTrace (startTrace initState "t0")) 0).steps = [] ∧
    ((startTrace initState "t0").timers.all
      (fun p => initState.timers.all (fun q => p.1 != q.1))) = true :=
  scheduler_single_timer_and_reset initState "t0" 0 Reach.init

end AnatomyView
